import Mathlib

/-!
Verification of the HomeHelper lifecycle-orchestration subsystem.

Shallow embedding of the Python sources under `src/homehelper/managers/`:
`port_manager.py`, `app_manager.py`, `health_monitor.py`,
`process_manager_macos.py` and `streamlit_manager.py`.  Python dicts are
modelled as association lists (which preserve insertion order, as Python
dicts do), `datetime.now()` values as `Nat` parameters threaded into each
operation, and the outcomes of OS interactions (port bind probes, process
liveness, process spawning, subprocess exit codes, registry persistence)
as explicit oracle parameters.  Exceptions that a modelled function lets
escape are represented with the `PyResult` type.
-/

namespace HomeHelper

/-! ## Association-list model of Python dicts -/

/-- Lookup in an association list: the value of the first pair whose key
matches, mirroring `d[k]` / `d.get(k)` on a Python dict. -/
def alookup {α β : Type} [DecidableEq α] (k : α) : List (α × β) → Option β
  | [] => none
  | e :: t => if e.1 = k then some e.2 else alookup k t

/-- Update-or-append, mirroring `d[k] = v` on a Python dict: an existing key
keeps its position, a new key is appended at the end. -/
def aupsert {α β : Type} [DecidableEq α] (k : α) (v : β) : List (α × β) → List (α × β)
  | [] => [(k, v)]
  | e :: t => if e.1 = k then (k, v) :: t else e :: aupsert k v t

/-- Removal of a key, mirroring `del d[k]` on a Python dict. -/
def aerase {α β : Type} [DecidableEq α] (k : α) (l : List (α × β)) : List (α × β) :=
  l.filter (fun e => decide (e.1 ≠ k))

/-- In-place mutation of the value at a key (as Python record mutation
`d[k].field = v` does), leaving the keys of the dict untouched. -/
def amodify {α β : Type} [DecidableEq α] (k : α) (f : β → β) (l : List (α × β)) :
    List (α × β) :=
  l.map (fun e => if e.1 = k then (e.1, f e.2) else e)

theorem alookup_eq_none {α β : Type} [DecidableEq α] (k : α) (l : List (α × β)) :
    alookup k l = none ↔ ∀ e ∈ l, e.1 ≠ k := by
  induction l with
  | nil => simp [alookup]
  | cons e t ih =>
    by_cases h : e.1 = k
    · simp [alookup, h]
    · simp [alookup, h, ih]

theorem alookup_mem {α β : Type} [DecidableEq α] {k : α} {v : β} {l : List (α × β)}
    (h : alookup k l = some v) : (k, v) ∈ l := by
  induction l with
  | nil => simp [alookup] at h
  | cons e t ih =>
    rw [List.mem_cons]
    by_cases he : e.1 = k
    · simp only [alookup, he, if_pos, Option.some.injEq] at h
      left
      cases e
      simp_all
    · simp only [alookup, he, if_neg, not_false_iff] at h
      right
      exact ih h

theorem mem_alookup {α β : Type} [DecidableEq α] {k : α} {v : β} {l : List (α × β)}
    (hnd : (l.map Prod.fst).Nodup) (h : (k, v) ∈ l) : alookup k l = some v := by
  induction l with
  | nil => simp at h
  | cons e t ih =>
    simp only [List.map_cons, List.nodup_cons] at hnd
    rw [List.mem_cons] at h
    rcases h with h | h
    · subst h
      simp [alookup]
    · have hek : e.1 ≠ k := by
        intro hk
        exact hnd.1 (hk ▸ (List.mem_map.mpr ⟨(k, v), h, rfl⟩))
      simp only [alookup, hek, if_neg, not_false_iff]
      exact ih hnd.2 h

theorem alookup_aupsert_self {α β : Type} [DecidableEq α] (k : α) (v : β)
    (l : List (α × β)) : alookup k (aupsert k v l) = some v := by
  induction l with
  | nil => simp [aupsert, alookup]
  | cons e t ih =>
    by_cases he : e.1 = k <;> simp [aupsert, alookup, he, ih]

theorem alookup_aupsert_ne {α β : Type} [DecidableEq α] {k k' : α} (v : β)
    (l : List (α × β)) (h : k ≠ k') : alookup k' (aupsert k v l) = alookup k' l := by
  induction l with
  | nil => simp [aupsert, alookup, h]
  | cons e t ih =>
    by_cases he : e.1 = k
    · simp [aupsert, alookup, he, h]
    · simp only [aupsert, he, if_neg, not_false_iff, alookup]
      by_cases he' : e.1 = k' <;> simp [he', ih]

theorem alookup_aerase_self {α β : Type} [DecidableEq α] (k : α) (l : List (α × β)) :
    alookup k (aerase k l) = none := by
  rw [alookup_eq_none]
  intro e he
  have := List.of_mem_filter he
  simpa using this

theorem aerase_cons {α β : Type} [DecidableEq α] (k : α) (e : α × β)
    (t : List (α × β)) :
    aerase k (e :: t) = if e.1 = k then aerase k t else e :: aerase k t := by
  by_cases h : e.1 = k <;> simp [aerase, List.filter_cons, h]

theorem alookup_aerase_ne {α β : Type} [DecidableEq α] {k k' : α}
    (l : List (α × β)) (h : k ≠ k') : alookup k' (aerase k l) = alookup k' l := by
  induction l with
  | nil => rfl
  | cons e t ih =>
    rw [aerase_cons]
    by_cases he : e.1 = k
    · have he' : e.1 ≠ k' := by rw [he]; exact h
      rw [if_pos he, ih]
      simp [alookup, he']
    · rw [if_neg he]
      by_cases he' : e.1 = k' <;> simp [alookup, he', ih]

theorem mem_aerase {α β : Type} [DecidableEq α] {k : α} {e : α × β} {l : List (α × β)} :
    e ∈ aerase k l ↔ e ∈ l ∧ e.1 ≠ k := by
  simp [aerase, List.mem_filter]

theorem aerase_keys_sublist {α β : Type} [DecidableEq α] (k : α) (l : List (α × β)) :
    ((aerase k l).map Prod.fst).Sublist (l.map Prod.fst) :=
  (List.filter_sublist l).map Prod.fst

theorem aerase_keys_nodup {α β : Type} [DecidableEq α] (k : α) {l : List (α × β)}
    (h : (l.map Prod.fst).Nodup) : ((aerase k l).map Prod.fst).Nodup :=
  h.sublist (aerase_keys_sublist k l)

theorem mem_aupsert {α β : Type} [DecidableEq α] {k : α} {v : β} {e : α × β}
    {l : List (α × β)} (h : e ∈ aupsert k v l) : e = (k, v) ∨ e ∈ l := by
  induction l with
  | nil => simp [aupsert] at h; left; exact h
  | cons x t ih =>
    by_cases hx : x.1 = k
    · simp only [aupsert, hx, if_pos] at h
      rw [List.mem_cons] at h
      rcases h with h | h
      · left; exact h
      · right; exact List.mem_cons_of_mem x h
    · simp only [aupsert, hx, if_neg, not_false_iff] at h
      rw [List.mem_cons] at h
      rcases h with h | h
      · subst h
        right
        exact List.mem_cons_self _ _
      · rcases ih h with h1 | h1
        · left; exact h1
        · right; exact List.mem_cons_of_mem x h1

theorem mem_aupsert_of_mem {α β : Type} [DecidableEq α] {k : α} (v : β) {e : α × β}
    {l : List (α × β)} (h : e ∈ l) (hne : e.1 ≠ k) : e ∈ aupsert k v l := by
  induction l with
  | nil => simp at h
  | cons x t ih =>
    rw [List.mem_cons] at h
    rcases h with h | h
    · subst h
      simp only [aupsert, hne, if_neg, not_false_iff]
      exact List.mem_cons_self _ _
    · by_cases hx : x.1 = k
      · simp only [aupsert, hx, if_pos]
        exact List.mem_cons_of_mem _ h
      · simp only [aupsert, hx, if_neg, not_false_iff]
        exact List.mem_cons_of_mem x (ih h)

theorem self_mem_aupsert {α β : Type} [DecidableEq α] (k : α) (v : β)
    (l : List (α × β)) : (k, v) ∈ aupsert k v l :=
  alookup_mem (alookup_aupsert_self k v l)

theorem aupsert_keys_of_absent {α β : Type} [DecidableEq α] {k : α} (v : β)
    {l : List (α × β)} (h : alookup k l = none) :
    (aupsert k v l).map Prod.fst = l.map Prod.fst ++ [k] := by
  induction l with
  | nil => simp [aupsert]
  | cons x t ih =>
    rw [alookup] at h
    by_cases hx : x.1 = k
    · simp [hx] at h
    · simp only [hx, if_neg, not_false_iff] at h
      simp [aupsert, hx, ih h]

theorem aupsert_keys_nodup_of_absent {α β : Type} [DecidableEq α] {k : α} (v : β)
    {l : List (α × β)} (h : alookup k l = none) (hnd : (l.map Prod.fst).Nodup) :
    ((aupsert k v l).map Prod.fst).Nodup := by
  rw [aupsert_keys_of_absent v h]
  rw [List.nodup_append]
  refine ⟨hnd, List.nodup_singleton k, ?_⟩
  intro a ha hak
  rw [List.mem_singleton] at hak
  rcases List.mem_map.mp ha with ⟨e, he, hek⟩
  exact (alookup_eq_none k l).mp h e he (by rw [hek, hak])

theorem amodify_cons {α β : Type} [DecidableEq α] (k : α) (f : β → β) (x : α × β)
    (t : List (α × β)) :
    amodify k f (x :: t) =
      (if x.1 = k then (x.1, f x.2) else x) :: amodify k f t := rfl

theorem amodify_keys {α β : Type} [DecidableEq α] (k : α) (f : β → β)
    (l : List (α × β)) : (amodify k f l).map Prod.fst = l.map Prod.fst := by
  induction l with
  | nil => rfl
  | cons x t ih =>
    rw [amodify_cons, List.map_cons, List.map_cons, ih]
    by_cases hx : x.1 = k <;> simp [hx]

theorem mem_amodify {α β : Type} [DecidableEq α] {k : α} {f : β → β} {e : α × β}
    {l : List (α × β)} (h : e ∈ amodify k f l) :
    (e ∈ l ∧ e.1 ≠ k) ∨ ∃ v, (k, v) ∈ l ∧ e = (k, f v) := by
  rcases List.mem_map.mp h with ⟨x, hx, hxe⟩
  by_cases hk : x.1 = k
  · right
    refine ⟨x.2, ?_, ?_⟩
    · rw [← hk]
      exact hx
    · rw [← hxe]
      simp [hk]
  · left
    constructor
    · rw [← hxe]
      simpa [hk] using hx
    · rw [← hxe]
      simp [hk]

theorem mem_amodify_of_mem {α β : Type} [DecidableEq α] {k : α} {f : β → β}
    {e : α × β} {l : List (α × β)} (h : e ∈ l) (hne : e.1 ≠ k) :
    e ∈ amodify k f l := by
  refine List.mem_map.mpr ⟨e, h, ?_⟩
  simp [hne]

theorem alookup_amodify_ne {α β : Type} [DecidableEq α] {k k' : α} (f : β → β)
    (l : List (α × β)) (h : k ≠ k') : alookup k' (amodify k f l) = alookup k' l := by
  induction l with
  | nil => rfl
  | cons x t ih =>
    rw [amodify_cons]
    by_cases hx : x.1 = k
    · have hx' : x.1 ≠ k' := by rw [hx]; exact h
      rw [if_pos hx]
      simp [alookup, hx', ih]
    · rw [if_neg hx]
      by_cases hx' : x.1 = k' <;> simp [alookup, hx', ih]

/-! ## Data model (`app_manager.py` lines 24-139) -/

/-- Application types supported by HomeHelper (`AppType`, lines 24-27). -/
inductive AppType : Type
  | service
  | streamlit
deriving DecidableEq, Repr

/-- String value of an `AppType`, as the Python `str`-enum carries it. -/
def AppType.str : AppType → String
  | .service => "service"
  | .streamlit => "streamlit"

/-- Application status values (`AppStatus`, lines 30-39). -/
inductive AppStatus : Type
  | discovered
  | installing
  | ready
  | starting
  | running
  | stopping
  | stopped
  | error
deriving DecidableEq, Repr

/-- Application configuration options (`AppConfig`, lines 42-49). -/
structure AppConfig : Type where
  has_UI : Bool := false
  redis_required : Bool := false
  logs_dir : Bool := false
  data_dir : Bool := false
  auto_start : Bool := false
  restart_policy : String := "always"
deriving DecidableEq, Repr

/-- Application installation configuration (`AppInstall`, lines 52-54). -/
structure AppInstall : Type where
  setup_commands : Option (List String) := none
deriving DecidableEq, Repr

/-- Validated application manifest (`AppManifest`, lines 57-69).  The pydantic
field constraints are enforced by `validateManifest` below; contrary to the
access on line 409 of `app_manager.py`, this schema has no `requirements`
field. -/
structure AppManifest : Type where
  name : String
  type : AppType
  description : String
  version : String
  author : String
  main_file : String
  config : AppConfig := {}
  install : AppInstall := {}
deriving DecidableEq, Repr

/-- Runtime information for an application (`AppRuntimeInfo`, lines 72-99).
Timestamps are `Nat` instants. -/
structure AppRuntimeInfo : Type where
  assigned_port : Option Nat := none
  process_id : Option String := none
  service_name : Option String := none
  started_at : Option Nat := none
  last_health_check : Option Nat := none
  error_message : Option String := none
deriving DecidableEq, Repr

/-- Registry entry for a discovered application (`AppRegistryEntry`,
lines 102-139).  `path` is the application directory as a string. -/
structure AppRegistryEntry : Type where
  app_id : String
  name : String
  type : AppType
  description : String
  version : String
  status : AppStatus
  path : String
  manifest : AppManifest
  runtime_info : AppRuntimeInfo := {}
  discovered_at : Nat := 0
  last_updated : Nat := 0
deriving DecidableEq, Repr

/-! ## Port Allocator (`port_manager.py`)

State of `PortManager`: the two dicts `allocations : Dict[int,
PortAllocation]` and `app_ports : Dict[str, int]` plus the configured
inclusive port range.  `_is_port_available` (lines 59-66) probes the OS by
binding the port; every operation that probes takes the probe outcome as an
oracle `avail : Nat → Bool`. -/

/-- Port allocation record (`PortAllocation`, lines 19-38). -/
structure PortAllocation : Type where
  port : Nat
  app_id : String
  app_type : String
  allocated_at : Nat
  status : String
deriving DecidableEq, Repr

/-- In-memory state of `PortManager` (lines 41-57). -/
structure PMState : Type where
  port_start : Nat
  port_end : Nat
  allocations : List (Nat × PortAllocation) := []
  app_ports : List (String × Nat) := []
deriving DecidableEq, Repr

/-- Fresh `PortManager` state for a configured range (lines 44-57). -/
def pmInit (ps pe : Nat) : PMState := { port_start := ps, port_end := pe }

/-- Ports of the configured range in ascending order, as iterated by
`range(self.port_start, self.port_end + 1)`. -/
def PMState.rangePorts (s : PMState) : List Nat :=
  List.range' s.port_start (s.port_end + 1 - s.port_start)

/-- Model of `PortManager._allocate_specific_port` (lines 108-122): record the
allocation with status `allocated` in both dicts and return the port.  Its
callers only invoke it on a port absent from `allocations`. -/
def allocateSpecificPort (now : Nat) (app_id app_type : String) (port : Nat)
    (s : PMState) : PMState × Nat :=
  ({ s with
      allocations :=
        aupsert port
          { port := port, app_id := app_id, app_type := app_type,
            allocated_at := now, status := "allocated" } s.allocations,
      app_ports := aupsert app_id port s.app_ports },
   port)

/-- Model of `PortManager.release_port` (lines 124-147): returns `false` and
mutates nothing when the app holds no port; otherwise marks the record
released and deletes it from both dicts (the mark is unobservable because the
record is deleted on the next line of the source, so the net state change is
the two deletions).  Line 139 of the source reads `allocations[port]` and
would raise `KeyError` if `app_ports` pointed at a port with no allocation
record; that state is unreachable (see `pmGood_run`) and the model performs
the deletions regardless. -/
def releasePort (app_id : String) (s : PMState) : PMState × Bool :=
  match alookup app_id s.app_ports with
  | none => (s, false)
  | some port =>
      ({ s with
          allocations := aerase port s.allocations,
          app_ports := aerase app_id s.app_ports },
       true)

/-- Scan of lines 100-106: the first unallocated, bindable port of the range,
allocated via `_allocate_specific_port`; `None` when the scan finds nothing. -/
def allocateScan (avail : Nat → Bool) (now : Nat) (app_id app_type : String)
    (s : PMState) : PMState × Option Nat :=
  match s.rangePorts.find? (fun p => (alookup p s.allocations).isNone && avail p) with
  | some p =>
      let r := allocateSpecificPort now app_id app_type p s
      (r.1, some r.2)
  | none => (s, none)

/-- Preferred-port attempt plus scan (lines 95-106).  A preferred port is
taken only when truthy (non-zero), inside the configured range, unallocated
and bindable; otherwise the ascending scan runs. -/
def allocateFresh (avail : Nat → Bool) (now : Nat) (app_id app_type : String)
    (preferred : Option Nat) (s : PMState) : PMState × Option Nat :=
  match preferred with
  | some pp =>
      if pp ≠ 0 ∧ s.port_start ≤ pp ∧ pp ≤ s.port_end ∧
          (alookup pp s.allocations).isNone ∧ avail pp then
        let r := allocateSpecificPort now app_id app_type pp s
        (r.1, some r.2)
      else allocateScan avail now app_id app_type s
  | none => allocateScan avail now app_id app_type s

/-- Model of `PortManager.allocate_port` (lines 68-106).  When the app already
holds a port that is still bindable, the existing record is refreshed in
place (status `allocated`, new timestamp) and the port is returned (lines
80-90); when the held port is no longer bindable the stale record is released
first (lines 91-93) and a fresh allocation runs.  Line 83 of the source reads
`allocations[existing_port]` eagerly and would raise `KeyError` in a state
where the record is missing; that state is unreachable (see `pmGood_run`) and
the model refreshes the record only if present. -/
def allocatePort (avail : Nat → Bool) (now : Nat) (app_id app_type : String)
    (preferred : Option Nat) (s : PMState) : PMState × Option Nat :=
  match alookup app_id s.app_ports with
  | some existing_port =>
      if avail existing_port then
        ({ s with
            allocations :=
              amodify existing_port
                (fun al => { al with status := "allocated", allocated_at := now })
                s.allocations },
         some existing_port)
      else
        let s1 := (releasePort app_id s).1
        allocateFresh avail now app_id app_type preferred s1
  | none => allocateFresh avail now app_id app_type preferred s

/-- Model of `PortManager.mark_port_in_use` (lines 153-164). -/
def markPortInUse (app_id : String) (s : PMState) : PMState × Bool :=
  match alookup app_id s.app_ports with
  | none => (s, false)
  | some port =>
      if (alookup port s.allocations).isSome then
        ({ s with
            allocations := amodify port (fun al => { al with status := "in_use" })
              s.allocations },
         true)
      else (s, false)

/-- Model of `PortManager.cleanup_stale_allocations` (lines 178-205): collect
the app ids whose allocation has status `allocated`, whose port is bindable
and whose age exceeds 3600 seconds, then release each. -/
def cleanupStaleAllocations (avail : Nat → Bool) (now : Nat) (s : PMState) :
    PMState × Nat :=
  let stale := (s.app_ports.filter (fun e =>
    match alookup e.2 s.allocations with
    | some al => al.status == "allocated" && avail e.2 && decide (now - al.allocated_at > 3600)
    | none => false)).map Prod.fst
  stale.foldl
    (fun (acc : PMState × Nat) a =>
      let r := releasePort a acc.1
      (r.1, if r.2 then acc.2 + 1 else acc.2))
    (s, 0)

/-- One `PortManager` call together with the oracle values observed during
it: the outcome of each OS bind probe and the wall-clock instant. -/
inductive PMOp : Type
  | alloc (avail : Nat → Bool) (now : Nat) (app_id app_type : String)
      (preferred : Option Nat)
  | release (app_id : String)
  | markInUse (app_id : String)
  | cleanup (avail : Nat → Bool) (now : Nat)

/-- Application of one `PortManager` call to the state, result discarded. -/
def pmStep (s : PMState) : PMOp → PMState
  | .alloc avail now app_id app_type preferred =>
      (allocatePort avail now app_id app_type preferred s).1
  | .release app_id => (releasePort app_id s).1
  | .markInUse app_id => (markPortInUse app_id s).1
  | .cleanup avail now => (cleanupStaleAllocations avail now s).1

/-- Sequential execution of `PortManager` calls. -/
def pmRun (ops : List PMOp) (s : PMState) : PMState :=
  ops.foldl pmStep s

/-! ### Port exclusivity invariant -/

/-- Inductive invariant of the two `PortManager` dicts: both are keyed
without duplicates, they point at each other consistently, and no record in
`allocations` carries the status `released` (a released record is deleted at
once, lines 140-144). -/
def pmGood (s : PMState) : Prop :=
  (s.app_ports.map Prod.fst).Nodup ∧
  (s.allocations.map Prod.fst).Nodup ∧
  (∀ a p, (a, p) ∈ s.app_ports → ∃ al, (p, al) ∈ s.allocations ∧ al.app_id = a) ∧
  (∀ p al, (p, al) ∈ s.allocations → (al.app_id, p) ∈ s.app_ports) ∧
  (∀ p al, (p, al) ∈ s.allocations → al.status ≠ "released")

theorem nodup_key_unique {α β : Type} [DecidableEq α] {l : List (α × β)}
    (hnd : (l.map Prod.fst).Nodup) {k : α} {v1 v2 : β}
    (h1 : (k, v1) ∈ l) (h2 : (k, v2) ∈ l) : v1 = v2 :=
  Option.some.inj ((mem_alookup hnd h1).symm.trans (mem_alookup hnd h2))

theorem mem_amodify_self {α β : Type} [DecidableEq α] {k : α} {v : β} (f : β → β)
    {l : List (α × β)} (h : (k, v) ∈ l) : (k, f v) ∈ amodify k f l :=
  List.mem_map.mpr ⟨(k, v), h, by simp⟩

theorem releasePort_good {app_id : String} {s : PMState} (hg : pmGood s) :
    pmGood (releasePort app_id s).1 := by
  obtain ⟨h1, h2, h3, h4, h5⟩ := hg
  unfold releasePort
  cases hp : alookup app_id s.app_ports with
  | none => exact ⟨h1, h2, h3, h4, h5⟩
  | some port =>
    dsimp only
    have hmem : (app_id, port) ∈ s.app_ports := alookup_mem hp
    obtain ⟨alp, halp, halp_id⟩ := h3 app_id port hmem
    refine ⟨aerase_keys_nodup _ h1, aerase_keys_nodup _ h2, ?_, ?_, ?_⟩
    · intro b q hbq0
      have hbq := mem_aerase.mp hbq0
      obtain ⟨al, hal, hal_id⟩ := h3 b q hbq.1
      have hqport : q ≠ port := by
        intro hq
        subst hq
        have := nodup_key_unique h2 hal halp
        rw [← hal_id, this, halp_id] at hbq
        exact hbq.2 rfl
      exact ⟨al, mem_aerase.mpr ⟨hal, hqport⟩, hal_id⟩
    · intro q al hq
      have hqal := mem_aerase.mp hq
      have hap := h4 q al hqal.1
      have hne : al.app_id ≠ app_id := by
        intro hid
        rw [hid] at hap
        exact hqal.2 (nodup_key_unique h1 hap hmem)
      exact mem_aerase.mpr ⟨hap, hne⟩
    · intro q al hq
      exact h5 q al (mem_aerase.mp hq).1

theorem allocateSpecificPort_good {now : Nat} {app_id app_type : String}
    {port : Nat} {s : PMState} (hg : pmGood s)
    (hpa : alookup port s.allocations = none)
    (haa : alookup app_id s.app_ports = none) :
    pmGood (allocateSpecificPort now app_id app_type port s).1 := by
  obtain ⟨h1, h2, h3, h4, h5⟩ := hg
  unfold allocateSpecificPort
  refine ⟨aupsert_keys_nodup_of_absent _ haa h1,
          aupsert_keys_nodup_of_absent _ hpa h2, ?_, ?_, ?_⟩
  · intro b q hbq
    rcases mem_aupsert hbq with hnew | hold
    · obtain ⟨hb, hq⟩ := Prod.mk.injEq .. ▸ hnew
      subst hb; subst hq
      exact ⟨_, self_mem_aupsert _ _ _, rfl⟩
    · have hbne : b ≠ app_id := fun hb =>
        (alookup_eq_none app_id s.app_ports).mp haa (b, q) hold hb
      obtain ⟨al, hal, hal_id⟩ := h3 b q hold
      have hqne : q ≠ port := fun hq =>
        (alookup_eq_none port s.allocations).mp hpa (q, al) hal hq
      exact ⟨al, mem_aupsert_of_mem _ hal hqne, hal_id⟩
  · intro q al hq
    rcases mem_aupsert hq with hnew | hold
    · obtain ⟨hqp, hal⟩ := Prod.mk.injEq .. ▸ hnew
      subst hqp; subst hal
      exact self_mem_aupsert _ _ _
    · have := h4 q al hold
      have hidne : al.app_id ≠ app_id := fun hid =>
        (alookup_eq_none app_id s.app_ports).mp haa (al.app_id, q) this hid
      exact mem_aupsert_of_mem _ this hidne
  · intro q al hq
    rcases mem_aupsert hq with hnew | hold
    · obtain ⟨_, hal⟩ := Prod.mk.injEq .. ▸ hnew
      subst hal
      simp
    · exact h5 q al hold

theorem allocateScan_good {avail : Nat → Bool} {now : Nat}
    {app_id app_type : String} {s : PMState} (hg : pmGood s)
    (haa : alookup app_id s.app_ports = none) :
    pmGood (allocateScan avail now app_id app_type s).1 := by
  unfold allocateScan
  cases hf : s.rangePorts.find?
      (fun p => (alookup p s.allocations).isNone && avail p) with
  | none => exact hg
  | some p =>
    have hpred := List.find?_some hf
    have hpa : alookup p s.allocations = none := by
      rcases Bool.and_eq_true_iff.mp hpred with ⟨hl, _⟩
      exact Option.isNone_iff_eq_none.mp hl
    exact allocateSpecificPort_good hg hpa haa

theorem pmGood_amodify_status {s : PMState} (hg : pmGood s) (k : Nat)
    (f : PortAllocation → PortAllocation)
    (hid : ∀ al, (f al).app_id = al.app_id)
    (hst : ∀ al, (f al).status ≠ "released") :
    pmGood { s with allocations := amodify k f s.allocations } := by
  obtain ⟨h1, h2, h3, h4, h5⟩ := hg
  refine ⟨?_, ?_, ?_, ?_, ?_⟩
  · dsimp only
    exact h1
  · dsimp only
    rw [amodify_keys]
    exact h2
  · intro b q hbq
    dsimp only at hbq ⊢
    obtain ⟨al, hal, hal_id⟩ := h3 b q hbq
    by_cases hq : q = k
    · subst hq
      exact ⟨f al, mem_amodify_self f hal, by rw [hid al]; exact hal_id⟩
    · exact ⟨al, mem_amodify_of_mem hal hq, hal_id⟩
  · intro q al hq
    dsimp only at hq ⊢
    rcases mem_amodify hq with ⟨hold, _⟩ | ⟨v, hv2, he⟩
    · exact h4 q al hold
    · obtain ⟨hq1, hq2⟩ := Prod.mk.injEq .. ▸ he
      subst hq1; subst hq2
      rw [hid v]
      exact h4 _ v hv2
  · intro q al hq
    dsimp only at hq
    rcases mem_amodify hq with ⟨hold, _⟩ | ⟨v, _, he⟩
    · exact h5 q al hold
    · obtain ⟨_, hq2⟩ := Prod.mk.injEq .. ▸ he
      subst hq2
      exact hst v

theorem allocateFresh_good {avail : Nat → Bool} {now : Nat}
    {app_id app_type : String} {preferred : Option Nat} {s : PMState}
    (hg : pmGood s) (haa : alookup app_id s.app_ports = none) :
    pmGood (allocateFresh avail now app_id app_type preferred s).1 := by
  unfold allocateFresh
  cases preferred with
  | none => exact allocateScan_good hg haa
  | some pp =>
    dsimp only
    by_cases hc : pp ≠ 0 ∧ s.port_start ≤ pp ∧ pp ≤ s.port_end ∧
        (alookup pp s.allocations).isNone = true ∧ avail pp = true
    · rw [if_pos hc]
      exact allocateSpecificPort_good hg
        (Option.isNone_iff_eq_none.mp hc.2.2.2.1) haa
    · rw [if_neg hc]
      exact allocateScan_good hg haa

theorem allocatePort_good {avail : Nat → Bool} {now : Nat}
    {app_id app_type : String} {preferred : Option Nat} {s : PMState}
    (hg : pmGood s) :
    pmGood (allocatePort avail now app_id app_type preferred s).1 := by
  unfold allocatePort
  cases hp : alookup app_id s.app_ports with
  | none => exact allocateFresh_good hg hp
  | some ep =>
    dsimp only
    by_cases hv : avail ep = true
    · rw [if_pos hv]
      exact pmGood_amodify_status hg ep _ (fun al => rfl) (fun al => by simp)
    · rw [if_neg hv]
      have hrel : pmGood (releasePort app_id s).1 := releasePort_good hg
      have hrelA : alookup app_id (releasePort app_id s).1.app_ports = none := by
        unfold releasePort
        rw [hp]
        exact alookup_aerase_self _ _
      exact allocateFresh_good hrel hrelA

theorem markPortInUse_good {app_id : String} {s : PMState} (hg : pmGood s) :
    pmGood (markPortInUse app_id s).1 := by
  unfold markPortInUse
  cases hp : alookup app_id s.app_ports with
  | none => exact hg
  | some port =>
    dsimp only
    by_cases hs : (alookup port s.allocations).isSome = true
    · rw [if_pos hs]
      exact pmGood_amodify_status hg port _ (fun al => rfl) (fun al => by simp)
    · rw [if_neg hs]
      exact hg

theorem cleanup_fold_good (l : List String) :
    ∀ (acc : PMState × Nat), pmGood acc.1 →
      pmGood ((l.foldl
        (fun (acc : PMState × Nat) a =>
          let r := releasePort a acc.1
          (r.1, if r.2 then acc.2 + 1 else acc.2)) acc).1) := by
  induction l with
  | nil => intro acc h; exact h
  | cons a t ih =>
    intro acc h
    exact ih _ (releasePort_good h)

theorem cleanupStaleAllocations_good {avail : Nat → Bool} {now : Nat}
    {s : PMState} (hg : pmGood s) :
    pmGood (cleanupStaleAllocations avail now s).1 := by
  unfold cleanupStaleAllocations
  exact cleanup_fold_good _ (s, 0) hg

theorem pmStep_good {s : PMState} (hg : pmGood s) (op : PMOp) :
    pmGood (pmStep s op) := by
  cases op with
  | alloc avail now app_id app_type preferred => exact allocatePort_good hg
  | release app_id => exact releasePort_good hg
  | markInUse app_id => exact markPortInUse_good hg
  | cleanup avail now => exact cleanupStaleAllocations_good hg

theorem pmRun_good (ops : List PMOp) :
    ∀ (s : PMState), pmGood s → pmGood (pmRun ops s) := by
  induction ops with
  | nil => intro s h; exact h
  | cons op t ih =>
    intro s h
    exact ih _ (pmStep_good h op)

theorem pmInit_good (ps pe : Nat) : pmGood (pmInit ps pe) := by
  refine ⟨List.nodup_nil, List.nodup_nil, ?_, ?_, ?_⟩ <;> intro a p h <;> simp [pmInit] at h

/-- Port exclusivity as the claim states it: distinct currently-allocated
application ids hold distinct ports, no port carries two non-released
allocation records, and no application id holds two allocations. -/
def PortExclusive (s : PMState) : Prop :=
  (∀ a p b q, (a, p) ∈ s.app_ports → (b, q) ∈ s.app_ports → a ≠ b → p ≠ q) ∧
  ((s.allocations.map Prod.fst).Nodup ∧
    ∀ p al, (p, al) ∈ s.allocations → al.status ≠ "released") ∧
  (s.app_ports.map Prod.fst).Nodup

theorem exclusive_of_good {s : PMState} (hg : pmGood s) : PortExclusive s := by
  obtain ⟨h1, h2, h3, _, h5⟩ := hg
  refine ⟨?_, ⟨h2, h5⟩, h1⟩
  intro a p b q hap hbq hab hpq
  subst hpq
  obtain ⟨al, hal, hal_id⟩ := h3 a p hap
  obtain ⟨al', hal', hal_id'⟩ := h3 b p hbq
  have := nodup_key_unique h2 hal hal'
  rw [this] at hal_id
  exact hab (hal_id.symm.trans hal_id')

/-- C5: after any sequence of `allocate_port`, `release_port`,
`mark_port_in_use` and `cleanup_stale_allocations` calls on a fresh
`PortManager`, port exclusivity holds: any two distinct application ids that
hold allocations hold different ports, no port has two non-released
allocations at once, and no application id holds more than one allocation at
once. -/
theorem C5_port_exclusivity (ops : List PMOp) (ps pe : Nat) :
    PortExclusive (pmRun ops (pmInit ps pe)) :=
  exclusive_of_good (pmRun_good ops _ (pmInit_good ps pe))

/-! ### Allocation reuse (claim C8) -/

theorem allocateSpecificPort_lookup (now : Nat) (app_id app_type : String)
    (port : Nat) (s : PMState) :
    alookup app_id (allocateSpecificPort now app_id app_type port s).1.app_ports =
      some port := by
  unfold allocateSpecificPort
  exact alookup_aupsert_self _ _ _

theorem allocateScan_lookup {avail : Nat → Bool} {now : Nat}
    {app_id app_type : String} {s : PMState} {p : Nat}
    (h : (allocateScan avail now app_id app_type s).2 = some p) :
    alookup app_id (allocateScan avail now app_id app_type s).1.app_ports =
      some p := by
  unfold allocateScan at h ⊢
  cases hf : s.rangePorts.find?
      (fun q => (alookup q s.allocations).isNone && avail q) with
  | none =>
    rw [hf] at h
    simp at h
  | some q =>
    rw [hf] at h
    dsimp only at h ⊢
    have hq : q = p := by simpa [allocateSpecificPort] using h
    subst hq
    exact allocateSpecificPort_lookup now app_id app_type q s

theorem allocateFresh_lookup {avail : Nat → Bool} {now : Nat}
    {app_id app_type : String} {preferred : Option Nat} {s : PMState} {p : Nat}
    (h : (allocateFresh avail now app_id app_type preferred s).2 = some p) :
    alookup app_id (allocateFresh avail now app_id app_type preferred s).1.app_ports =
      some p := by
  unfold allocateFresh at h ⊢
  cases preferred with
  | none => exact allocateScan_lookup h
  | some pp =>
    dsimp only at h ⊢
    by_cases hc : pp ≠ 0 ∧ s.port_start ≤ pp ∧ pp ≤ s.port_end ∧
        (alookup pp s.allocations).isNone = true ∧ avail pp = true
    · rw [if_pos hc] at h ⊢
      have hpp : pp = p := by simpa [allocateSpecificPort] using h
      subst hpp
      exact allocateSpecificPort_lookup now app_id app_type pp s
    · rw [if_neg hc] at h ⊢
      exact allocateScan_lookup h

theorem allocatePort_lookup {avail : Nat → Bool} {now : Nat}
    {app_id app_type : String} {preferred : Option Nat} {s : PMState} {p : Nat}
    (h : (allocatePort avail now app_id app_type preferred s).2 = some p) :
    alookup app_id (allocatePort avail now app_id app_type preferred s).1.app_ports =
      some p := by
  unfold allocatePort at h ⊢
  cases hp : alookup app_id s.app_ports with
  | none =>
    rw [hp] at h
    exact allocateFresh_lookup h
  | some ep =>
    rw [hp] at h
    dsimp only at h ⊢
    by_cases hv : avail ep = true
    · rw [if_pos hv] at h ⊢
      have hep : ep = p := by simpa using h
      subst hep
      exact hp
    · rw [if_neg hv] at h ⊢
      exact allocateFresh_lookup h

/-- C8: allocation is reusable per application: a second `allocate_port` call
for the same application id, with no intervening `release_port` and with the
first call's port still bindable, returns the same port (lines 80-90 of
`port_manager.py`). -/
theorem C8_allocate_reuse (avail1 avail2 : Nat → Bool) (now1 now2 : Nat)
    (app_id ty1 ty2 : String) (pref1 pref2 : Option Nat) (s : PMState) (p : Nat)
    (h1 : (allocatePort avail1 now1 app_id ty1 pref1 s).2 = some p)
    (h2 : avail2 p = true) :
    (allocatePort avail2 now2 app_id ty2 pref2
        (allocatePort avail1 now1 app_id ty1 pref1 s).1).2 = some p := by
  have hl := allocatePort_lookup h1
  conv_lhs => rw [allocatePort]
  rw [hl]
  dsimp only
  rw [if_pos h2]

/-- Witness for C8 at a concrete input: a fresh manager on range 8100-8102
with every bind probe succeeding hands app `a` port 8100 twice in a row. -/
theorem C8_allocate_reuse_witness :
    (allocatePort (fun _ => true) 1 "a" "service" none
        (allocatePort (fun _ => true) 0 "a" "service" none (pmInit 8100 8102)).1).2 =
      some 8100 :=
  C8_allocate_reuse (fun _ => true) (fun _ => true) 0 1 "a" "service" "service"
    none none (pmInit 8100 8102) 8100 (by decide) rfl

/-! ## Application Registry (`app_manager.py` lines 142-255)

State of `AppRegistry`: the in-memory dict `apps` plus the durable store
`apps.json`, modelled as the snapshot of entries the last successful persist
wrote.  `_save_registry` (lines 182-200) writes the whole registry to a temp
file and atomically replaces the durable file; its `try/except` swallows
every failure, so a failed persist leaves the durable snapshot unchanged and
is invisible to the caller.  The oracle `persistOk` tells whether the write
succeeds. -/

/-- Registry state: in-memory `apps` dict plus the durable snapshot. -/
structure RegState : Type where
  apps : List (String × AppRegistryEntry) := []
  durable : List (String × AppRegistryEntry) := []
deriving DecidableEq, Repr

/-- Model of `AppRegistry._save_registry` (lines 182-200): on success the
durable snapshot becomes the in-memory dict; on failure the exception is
caught and logged (line 199-200), the durable snapshot stays as it was, and
no error is reported to the caller. -/
def saveRegistry (persistOk : Bool) (s : RegState) : RegState :=
  if persistOk then { s with durable := s.apps } else s

/-- Model of `AppRegistry.register_app` (lines 202-211): store the entry,
persist, and return `True`.  The `except` branch (lines 209-211) is dead for
persistence failures because `_save_registry` never raises. -/
def registerApp (persistOk : Bool) (entry : AppRegistryEntry) (s : RegState) :
    RegState × Bool :=
  (saveRegistry persistOk { s with apps := aupsert entry.app_id entry s.apps }, true)

/-- Fields that `AppRegistry.update_app` is called with in the modelled
call sites (`**kwargs`, applied to the entry by `setattr`, lines 219-223). -/
structure UpdateFields : Type where
  status : Option AppStatus := none
  runtime_info : Option AppRuntimeInfo := none
  manifest : Option AppManifest := none
  path : Option String := none
  version : Option String := none
  description : Option String := none
deriving DecidableEq, Repr

/-- Application of `update_app` keyword arguments to an entry, followed by
the unconditional `last_updated = datetime.now()` of line 224. -/
def applyUpdate (now : Nat) (u : UpdateFields) (e : AppRegistryEntry) :
    AppRegistryEntry :=
  { e with
      status := u.status.getD e.status,
      runtime_info := u.runtime_info.getD e.runtime_info,
      manifest := u.manifest.getD e.manifest,
      path := u.path.getD e.path,
      version := u.version.getD e.version,
      description := u.description.getD e.description,
      last_updated := now }

/-- Model of `AppRegistry.update_app` (lines 213-230): `False` for an unknown
id; otherwise the entry is mutated in place, `last_updated` refreshed, the
registry persisted, and `True` returned regardless of the persist outcome. -/
def updateApp (now : Nat) (persistOk : Bool) (app_id : String) (u : UpdateFields)
    (s : RegState) : RegState × Bool :=
  match alookup app_id s.apps with
  | none => (s, false)
  | some _ =>
      (saveRegistry persistOk
        { s with apps := amodify app_id (applyUpdate now u) s.apps }, true)

/-- Model of `AppRegistry.unregister_app` (lines 232-239): delete the entry
and persist when present, `False` when absent. -/
def unregisterApp (persistOk : Bool) (app_id : String) (s : RegState) :
    RegState × Bool :=
  if (alookup app_id s.apps).isSome then
    (saveRegistry persistOk { s with apps := aerase app_id s.apps }, true)
  else (s, false)

/-- Sample manifest used by the concrete-input theorems. -/
def sampleManifest : AppManifest :=
  { name := "sample", type := AppType.service, description := "Sample app",
    version := "1.0.0", author := "A", main_file := "app.py" }

/-- Sample registry entry used by the concrete-input theorems. -/
def sampleEntry : AppRegistryEntry :=
  { app_id := "sample", name := "sample", type := AppType.service,
    description := "Sample app", version := "1.0.0",
    status := AppStatus.discovered, path := "sample",
    manifest := sampleManifest }

/-- C3 (divergence): with persistence failing, the prior durable state is
indeed left intact by all three registry mutations, but `register_app`,
`update_app` and `unregister_app` all report `True` to their caller instead
of the failure the claim requires — `_save_registry` catches the exception
internally (lines 199-200), so the `except` branches of the mutators never
see it.  Evaluated on a one-entry registry whose durable snapshot holds that
entry. -/
theorem C3_persist_failure_not_reported :
    (registerApp false sampleEntry { apps := [], durable := [] }
        = ({ apps := [("sample", sampleEntry)], durable := [] }, true)) ∧
    (updateApp 5 false "sample" { status := some AppStatus.ready }
        { apps := [("sample", sampleEntry)], durable := [("sample", sampleEntry)] }
      = ({ apps := [("sample", applyUpdate 5 { status := some AppStatus.ready } sampleEntry)],
            durable := [("sample", sampleEntry)] }, true)) ∧
    (unregisterApp false "sample"
        { apps := [("sample", sampleEntry)], durable := [("sample", sampleEntry)] }
      = ({ apps := [], durable := [("sample", sampleEntry)] }, true)) := by
  refine ⟨?_, ?_, ?_⟩ <;> rfl

/-! ## Application Discovery (`app_manager.py` lines 258-392) -/

/-- Raw manifest document as read from an app directory's `homehelper.json`,
before pydantic validation: required fields may be missing. -/
structure RawManifest : Type where
  name : Option String := none
  type : Option String := none
  description : Option String := none
  version : Option String := none
  author : Option String := none
  main_file : Option String := none
  config : Option AppConfig := none
  install : Option AppInstall := none
deriving DecidableEq, Repr

/-- One immediate subdirectory of the apps root: its name, its manifest
document (`none` when `homehelper.json` is absent or unparseable) and the
files it contains. -/
structure AppDir : Type where
  dirName : String
  manifest : Option RawManifest := none
  files : List String := []
deriving DecidableEq, Repr

/-- Split of a character list at every `.`, the executable counterpart of
matching `\d+\.\d+\.\d+` groups. -/
def splitDots : List Char → List (List Char)
  | [] => [[]]
  | c :: t =>
      let r := splitDots t
      if c = '.' then [] :: r
      else
        match r with
        | [] => [[c]]
        | h :: t2 => (c :: h) :: t2

/-- Check of the pydantic pattern `^\d+\.\d+\.\d+$` on the version string
(`AppManifest.version`, line 62): exactly three dot-separated groups, each a
nonempty digit run. -/
def versionOk (v : String) : Bool :=
  match splitDots v.data with
  | [a, b, c] =>
      !a.isEmpty && a.all Char.isDigit && !b.isEmpty && b.all Char.isDigit &&
        !c.isEmpty && c.all Char.isDigit
  | _ => false

/-- Parse of the `type` field against the `AppType` enum (line 60). -/
def parseAppType : String → Option AppType
  | "service" => some AppType.service
  | "streamlit" => some AppType.streamlit
  | _ => none

/-- Check of the pydantic pattern on `AppConfig.restart_policy` (line 49). -/
def restartPolicyOk (s : String) : Bool :=
  s == "always" || s == "on-failure" || s == "never"

/-- Pydantic validation of the manifest schema (`AppManifest`, lines 57-69):
all required fields present, length bounds, version pattern, enum type and
restart-policy pattern; missing `config`/`install` blocks get defaults. -/
def validateManifest (r : RawManifest) : Option AppManifest :=
  match r.name, r.type, r.description, r.version, r.author, r.main_file with
  | some nm, some ty, some desc, some ver, some auth, some mf =>
      match parseAppType ty with
      | none => none
      | some t =>
          let cfg := r.config.getD {}
          if decide (1 ≤ nm.length) && decide (nm.length ≤ 50) &&
              decide (1 ≤ desc.length) && decide (desc.length ≤ 200) &&
              versionOk ver && decide (1 ≤ auth.length) &&
              decide (auth.length ≤ 100) && decide (1 ≤ mf.length) &&
              restartPolicyOk cfg.restart_policy then
            some { name := nm, type := t, description := desc, version := ver,
                   author := auth, main_file := mf, config := cfg,
                   install := r.install.getD {} }
          else none
  | _, _, _, _, _, _ => none

/-- Model of `AppManager._parse_manifest` (lines 338-366): pydantic
validation followed by the main-file existence check (lines 347-352); a
missing `requirements.txt` only logs a warning (lines 354-357) and does not
reject the manifest. -/
def parseManifest (r : RawManifest) (files : List String) : Option AppManifest :=
  match validateManifest r with
  | none => none
  | some m => if files.contains m.main_file then some m else none

/-- Normalisation of the directory name into the base id (line 371):
`dir_name.lower().replace(' ', '-').replace('_', '-')`, realised as a
character map since both replaced patterns are single characters. -/
def normalizeDirName (d : String) : String :=
  String.mk (d.data.map (fun c =>
    let lc := c.toLower
    if lc = ' ' ∨ lc = '_' then '-' else lc))

/-- The `while registry.get_app(app_id)` loop of lines 373-378, with explicit
fuel: the loop runs at most once per occupied id plus one, so the fuel
`apps.length + 2` suffices to reach an unused candidate. -/
def genAppIdLoop (apps : List (String × AppRegistryEntry)) (base : String) :
    String → Nat → Nat → String
  | cand, _, 0 => cand
  | cand, counter, fuel + 1 =>
      if (alookup cand apps).isSome then
        genAppIdLoop apps base (base ++ "-" ++ toString counter) (counter + 1) fuel
      else cand

/-- Model of `AppManager._generate_app_id` (lines 368-380): the normalised
directory name, suffixed with the first counter that makes the id unused.
The `app_name` parameter is accepted but, as in the source, never used. -/
def generateAppId (apps : List (String × AppRegistryEntry))
    (app_name dirName : String) : String :=
  let base := normalizeDirName dirName
  genAppIdLoop apps base base 1 (apps.length + 2)

/-- Registry entry built for a newly discovered app (lines 311-320). -/
def mkDiscoveredEntry (now : Nat) (app_id : String) (m : AppManifest)
    (path : String) : AppRegistryEntry :=
  { app_id := app_id, name := m.name, type := m.type,
    description := m.description, version := m.version,
    status := AppStatus.discovered, path := path, manifest := m,
    runtime_info := {}, discovered_at := now, last_updated := now }

/-- Processing of one app directory inside `AppManager.discover_apps`
(lines 284-329): parse and validate the manifest, generate the app id, then
either refresh an existing entry whose path or version changed
(`_update_existing_app`, lines 382-392, without counting it) or register a
new entry in status `discovered` and count it. -/
def discoverStep (now : Nat) (persistOk : Bool) (acc : RegState × Nat)
    (d : AppDir) : RegState × Nat :=
  match d.manifest with
  | none => acc
  | some raw =>
      match parseManifest raw d.files with
      | none => acc
      | some m =>
          let app_id := generateAppId acc.1.apps m.name d.dirName
          match alookup app_id acc.1.apps with
          | some existing =>
              if existing.path ≠ d.dirName ∨ existing.version ≠ m.version then
                ((updateApp now persistOk app_id
                    { manifest := some m, path := some d.dirName,
                      version := some m.version,
                      description := some m.description,
                      status := some AppStatus.discovered } acc.1).1,
                 acc.2)
              else acc
          | none =>
              let entry := mkDiscoveredEntry now app_id m d.dirName
              let r := registerApp persistOk entry acc.1
              (r.1, if r.2 then acc.2 + 1 else acc.2)

/-- Model of `AppManager.discover_apps` (lines 271-336): fold over the app
directories, returning the updated registry and the count of newly
registered apps. -/
def discoverApps (now : Nat) (persistOk : Bool) (dirs : List AppDir)
    (reg : RegState) : RegState × Nat :=
  dirs.foldl (discoverStep now persistOk) (reg, 0)

/-- Valid raw manifest of the concrete discovery scenario. -/
def c1Raw : RawManifest :=
  { name := some "sample", type := some "service",
    description := some "Sample app", version := some "1.0.0",
    author := some "A", main_file := some "app.py" }

/-- Apps root with a single valid app directory `sample`. -/
def c1Dirs : List AppDir :=
  [{ dirName := "sample", manifest := some c1Raw, files := ["app.py"] }]

/-- C1 (divergence): discovery is not idempotent.  On an apps directory with
one valid manifest, the first run registers `sample`, but the second run with
no filesystem change registers `sample-1` and returns 1 instead of the 0 the
claim requires: `_generate_app_id` (lines 368-380) always loops until it
finds an id that is not yet registered, so the `existing_app` check on
line 303 never fires and every run re-registers every app under a fresh
suffixed id. -/
theorem C1_discovery_not_idempotent :
    (discoverApps 0 true c1Dirs { apps := [], durable := [] }).2 = 1 ∧
    (discoverApps 1 true c1Dirs
        (discoverApps 0 true c1Dirs { apps := [], durable := [] }).1).2 = 1 ∧
    ((discoverApps 1 true c1Dirs
        (discoverApps 0 true c1Dirs { apps := [], durable := [] }).1).1.apps.map
      Prod.fst) = ["sample", "sample-1"] := by
  refine ⟨?_, ?_, ?_⟩ <;> rfl

/-! ## Health Monitor (`health_monitor.py`)

State of `HealthMonitor`: the dicts `health_results`, `failure_counts` and
`last_check_times`.  The field `restartLog` is instrumentation recording, in
reverse chronological order, every invocation of `_attempt_service_restart`;
it lets the theorems count restart attempts and changes no modelled
behaviour.  The outcome of the delegated `service_manager.restart_service`
call (success, failure, or an exception caught on lines 308-309) is the
oracle `RestartOutcome`. -/

/-- Health check status values (`HealthStatus`, lines 21-26). -/
inductive HealthStatus : Type
  | good
  | warning
  | error
  | unknown
deriving DecidableEq, Repr

/-- Result of a health check (`HealthCheckResult`, lines 29-54). -/
structure HealthCheckResult : Type where
  app_id : String
  status : HealthStatus
  message : String
  response_time : Option Nat := none
  timestamp : Nat := 0
deriving DecidableEq, Repr

/-- Configuration for health checks with the source defaults
(`HealthCheckConfig`, lines 57-64). -/
structure HealthCheckConfig : Type where
  enabled : Bool := true
  interval : Nat := 30
  timeout : Nat := 5
  max_failures : Nat := 3
  failure_threshold : Nat := 2
deriving DecidableEq, Repr

/-- Outcome of one `service_manager.restart_service` delegation inside
`_attempt_service_restart` (lines 292-309): it returned `True`, returned
`False`, or raised (the exception is caught on lines 308-309). -/
inductive RestartOutcome : Type
  | ok
  | failed
  | raised
deriving DecidableEq, Repr

/-- Mutable state of `HealthMonitor` (lines 79-82) plus the restart
instrumentation log. -/
structure HMState : Type where
  health_results : List (String × HealthCheckResult) := []
  failure_counts : List (String × Nat) := []
  last_check_times : List (String × Nat) := []
  restartLog : List String := []
deriving DecidableEq, Repr

/-- Model of `HealthMonitor._attempt_service_restart` (lines 285-309): the
restart is delegated (recorded in the log); only a successful outcome resets
the failure counter to zero; a `False` return or a raised exception leaves
the counter alone. -/
def attemptServiceRestart (outcome : RestartOutcome) (app_id : String)
    (hm : HMState) : HMState :=
  let hm1 := { hm with restartLog := app_id :: hm.restartLog }
  match outcome with
  | RestartOutcome.ok =>
      { hm1 with failure_counts := aupsert app_id 0 hm1.failure_counts }
  | RestartOutcome.failed => hm1
  | RestartOutcome.raised => hm1

/-- Model of `HealthMonitor._handle_health_check_failure` (lines 243-283):
increment the consecutive-failure counter, record an `error`
`HealthCheckResult`, and escalate: at `failure_threshold` consecutive
failures the app's registry status is set to `error` with the message in
`runtime_info.error_message`; at `max_failures` the restart is attempted. -/
def handleHealthCheckFailure (cfg : HealthCheckConfig) (now : Nat)
    (persistOk : Bool) (outcome : RestartOutcome) (app_id msg : String)
    (hm : HMState) (reg : RegState) : HMState × RegState :=
  let cnt := (alookup app_id hm.failure_counts).getD 0 + 1
  let hm1 := { hm with
      failure_counts := aupsert app_id cnt hm.failure_counts,
      health_results :=
        aupsert app_id
          { app_id := app_id, status := HealthStatus.error, message := msg,
            response_time := none, timestamp := now } hm.health_results,
      last_check_times := aupsert app_id now hm.last_check_times }
  if cnt ≥ cfg.failure_threshold then
    let reg1 :=
      match alookup app_id reg.apps with
      | some app =>
          (updateApp now persistOk app_id
            { status := some AppStatus.error,
              runtime_info := some { app.runtime_info with
                error_message := some ("Health check failures: " ++ msg) } }
            reg).1
      | none => reg
    if cnt ≥ cfg.max_failures then
      (attemptServiceRestart outcome app_id hm1, reg1)
    else (hm1, reg1)
  else (hm1, reg)

/-- Model of the result-processing loop of
`HealthMonitor._perform_health_checks` (lines 140-165).  Tasks are created
only for the running service apps whose manifest declares `has_UI`
(lines 150-155), so the i-th gathered result belongs to the i-th *checked*
app; but line 163 attributes an exceptional result to `running_apps[i]`, the
i-th app of the *unfiltered* running list.  The oracle `raises` tells which
app's check task escaped with an exception and with what message; a task
that completed normally contributes nothing to this loop. -/
def processBatchResults (cfg : HealthCheckConfig) (now : Nat) (persistOk : Bool)
    (outcome : RestartOutcome) (raises : String → Option String)
    (running : List AppRegistryEntry) (hm : HMState) (reg : RegState) :
    HMState × RegState :=
  let checked := running.filter (fun a => a.manifest.config.has_UI)
  (List.range checked.length).foldl
    (fun st i =>
      match checked[i]? with
      | none => st
      | some ca =>
          match raises ca.app_id with
          | none => st
          | some msg =>
              match running[i]? with
              | none => st
              | some attributedApp =>
                  handleHealthCheckFailure cfg now persistOk outcome
                    attributedApp.app_id msg st.1 st.2)
    (hm, reg)

/-- Model of the app-collection part of `_perform_health_checks`
(lines 142-144) composed with the result-processing loop: all `service`-type
apps currently in `running` status are collected from the registry. -/
def performHealthChecksExc (cfg : HealthCheckConfig) (now : Nat)
    (persistOk : Bool) (outcome : RestartOutcome)
    (raises : String → Option String) (hm : HMState) (reg : RegState) :
    HMState × RegState :=
  let service_apps := (reg.apps.map Prod.snd).filter
    (fun a => decide (a.type = AppType.service))
  let running := service_apps.filter (fun a => decide (a.status = AppStatus.running))
  processBatchResults cfg now persistOk outcome raises running hm reg

/-- Running service entry without a UI, used by the C2 scenario. -/
def c2EntryNoUI : AppRegistryEntry :=
  { app_id := "a1", name := "a1", type := AppType.service, description := "d",
    version := "1.0.0", status := AppStatus.running, path := "a1",
    manifest := { name := "a1", type := AppType.service, description := "d",
                  version := "1.0.0", author := "A", main_file := "app.py",
                  config := { has_UI := false } } }

/-- Running service entry with a UI, used by the C2 scenario. -/
def c2EntryUI : AppRegistryEntry :=
  { app_id := "a2", name := "a2", type := AppType.service, description := "d",
    version := "1.0.0", status := AppStatus.running, path := "a2",
    manifest := { name := "a2", type := AppType.service, description := "d",
                  version := "1.0.0", author := "A", main_file := "app.py",
                  config := { has_UI := true } } }

/-- Registry of the C2 scenario: two running service apps, only `a2`
health-checkable. -/
def c2Reg : RegState :=
  { apps := [("a1", c2EntryNoUI), ("a2", c2EntryUI)],
    durable := [("a1", c2EntryNoUI), ("a2", c2EntryUI)] }

/-- C2 (divergence): in a batch over running service apps `a1` (no UI) and
`a2` (with UI), only `a2` is checked; when `a2`'s check raises, line 163 of
`health_monitor.py` attributes the exception to `running_apps[0] = a1`, so
the consecutive-failure increment and the error result are recorded for
`a1` — an app that was never checked — and nothing is recorded for `a2`.
The claim requires the failure to be recorded for `a2` and only `a2`. -/
theorem C2_failure_misattributed :
    (alookup "a1"
      (performHealthChecksExc {} 7 true RestartOutcome.failed
        (fun id => if id = "a2" then some "boom" else none) {} c2Reg).1.failure_counts
      = some 1) ∧
    (alookup "a2"
      (performHealthChecksExc {} 7 true RestartOutcome.failed
        (fun id => if id = "a2" then some "boom" else none) {} c2Reg).1.failure_counts
      = none) ∧
    (alookup "a2"
      (performHealthChecksExc {} 7 true RestartOutcome.failed
        (fun id => if id = "a2" then some "boom" else none) {} c2Reg).1.health_results
      = none) := by
  refine ⟨?_, ?_, ?_⟩ <;> rfl

/-! ### Health escalation ordering (claim C6) -/

theorem alookup_amodify_self {α β : Type} [DecidableEq α] {k : α} {v : β}
    (f : β → β) {l : List (α × β)} (h : alookup k l = some v) :
    alookup k (amodify k f l) = some (f v) := by
  induction l with
  | nil => simp [alookup] at h
  | cons x t ih =>
    rw [amodify_cons]
    by_cases hx : x.1 = k
    · simp only [alookup, hx, if_pos, Option.some.injEq] at h
      rw [if_pos hx]
      simp [alookup, hx, h]
    · simp only [alookup, hx, if_neg, not_false_iff] at h
      rw [if_neg hx]
      simp [alookup, hx, ih h]

theorem saveRegistry_apps (p : Bool) (s : RegState) :
    (saveRegistry p s).apps = s.apps := by
  cases p <;> rfl

theorem updateApp_lookup_self {now : Nat} {p : Bool} {app_id : String}
    {u : UpdateFields} {s : RegState} {app : AppRegistryEntry}
    (h : alookup app_id s.apps = some app) :
    alookup app_id (updateApp now p app_id u s).1.apps =
      some (applyUpdate now u app) := by
  unfold updateApp
  rw [h]
  dsimp only
  rw [saveRegistry_apps]
  exact alookup_amodify_self _ h

theorem updateApp_lookup_ne {now : Nat} {p : Bool} {id id' : String}
    {u : UpdateFields} {s : RegState} (hne : id ≠ id') :
    alookup id' (updateApp now p id u s).1.apps = alookup id' s.apps := by
  unfold updateApp
  cases h : alookup id s.apps with
  | none => rfl
  | some app =>
    dsimp only
    rw [saveRegistry_apps]
    exact alookup_amodify_ne _ _ hne

/-- C6: with the default configuration (`failure_threshold = 2`,
`max_failures = 3`), three consecutive failing health checks for a running
application with a zero failure counter produce, in order: after check 1 the
registry is untouched and no restart is attempted; after check 2 the app's
registry status has flipped to `error`, still with no restart attempt; after
check 3 exactly one restart attempt has been made (the log grew by exactly
that app id), and since that restart succeeds the consecutive-failure counter
is reset to zero. -/
theorem C6_health_escalation (hm : HMState) (reg : RegState) (app_id : String)
    (app : AppRegistryEntry) (p1 p2 p3 : Bool) (ro1 ro2 : RestartOutcome)
    (n1 n2 n3 : Nat) (m1 m2 m3 : String)
    (hApp : alookup app_id reg.apps = some app)
    (hRun : app.status = AppStatus.running)
    (hCnt : (alookup app_id hm.failure_counts).getD 0 = 0) :
    (handleHealthCheckFailure {} n1 p1 ro1 app_id m1 hm reg).2 = reg ∧
    (handleHealthCheckFailure {} n1 p1 ro1 app_id m1 hm reg).1.restartLog =
      hm.restartLog ∧
    (∃ e, alookup app_id
        (handleHealthCheckFailure {} n2 p2 ro2 app_id m2
          (handleHealthCheckFailure {} n1 p1 ro1 app_id m1 hm reg).1
          (handleHealthCheckFailure {} n1 p1 ro1 app_id m1 hm reg).2).2.apps
        = some e ∧ e.status = AppStatus.error) ∧
    (handleHealthCheckFailure {} n2 p2 ro2 app_id m2
      (handleHealthCheckFailure {} n1 p1 ro1 app_id m1 hm reg).1
      (handleHealthCheckFailure {} n1 p1 ro1 app_id m1 hm reg).2).1.restartLog =
      hm.restartLog ∧
    (handleHealthCheckFailure {} n3 p3 RestartOutcome.ok app_id m3
      (handleHealthCheckFailure {} n2 p2 ro2 app_id m2
        (handleHealthCheckFailure {} n1 p1 ro1 app_id m1 hm reg).1
        (handleHealthCheckFailure {} n1 p1 ro1 app_id m1 hm reg).2).1
      (handleHealthCheckFailure {} n2 p2 ro2 app_id m2
        (handleHealthCheckFailure {} n1 p1 ro1 app_id m1 hm reg).1
        (handleHealthCheckFailure {} n1 p1 ro1 app_id m1 hm reg).2).2).1.restartLog =
      app_id :: hm.restartLog ∧
    alookup app_id
      (handleHealthCheckFailure {} n3 p3 RestartOutcome.ok app_id m3
        (handleHealthCheckFailure {} n2 p2 ro2 app_id m2
          (handleHealthCheckFailure {} n1 p1 ro1 app_id m1 hm reg).1
          (handleHealthCheckFailure {} n1 p1 ro1 app_id m1 hm reg).2).1
        (handleHealthCheckFailure {} n2 p2 ro2 app_id m2
          (handleHealthCheckFailure {} n1 p1 ro1 app_id m1 hm reg).1
          (handleHealthCheckFailure {} n1 p1 ro1 app_id m1 hm reg).2).2).1.failure_counts
      = some 0 := by
  have e1 : handleHealthCheckFailure {} n1 p1 ro1 app_id m1 hm reg =
      ({ hm with
          failure_counts := aupsert app_id 1 hm.failure_counts,
          health_results := aupsert app_id
            { app_id := app_id, status := HealthStatus.error, message := m1,
              response_time := none, timestamp := n1 } hm.health_results,
          last_check_times := aupsert app_id n1 hm.last_check_times }, reg) := by
    unfold handleHealthCheckFailure
    rw [hCnt]
    dsimp only
    rw [if_neg (by decide)]
  rw [e1]
  have hc1 : (alookup app_id (aupsert app_id 1 hm.failure_counts)).getD 0 = 1 := by
    rw [alookup_aupsert_self]
    rfl
  have e2 : handleHealthCheckFailure {} n2 p2 ro2 app_id m2
      ({ hm with
          failure_counts := aupsert app_id 1 hm.failure_counts,
          health_results := aupsert app_id
            { app_id := app_id, status := HealthStatus.error, message := m1,
              response_time := none, timestamp := n1 } hm.health_results,
          last_check_times := aupsert app_id n1 hm.last_check_times }) reg =
      ({ hm with
          failure_counts := aupsert app_id 2 (aupsert app_id 1 hm.failure_counts),
          health_results := aupsert app_id
            { app_id := app_id, status := HealthStatus.error, message := m2,
              response_time := none, timestamp := n2 }
            (aupsert app_id
              { app_id := app_id, status := HealthStatus.error, message := m1,
                response_time := none, timestamp := n1 } hm.health_results),
          last_check_times := aupsert app_id n2
            (aupsert app_id n1 hm.last_check_times) },
       (updateApp n2 p2 app_id
          { status := some AppStatus.error,
            runtime_info := some { app.runtime_info with
              error_message := some ("Health check failures: " ++ m2) } }
          reg).1) := by
    unfold handleHealthCheckFailure
    rw [hc1]
    dsimp only
    rw [if_pos (by decide), hApp]
    dsimp only
    rw [if_neg (by decide)]
  rw [e2]
  have hlook2 : alookup app_id
      (updateApp n2 p2 app_id
        { status := some AppStatus.error,
          runtime_info := some { app.runtime_info with
            error_message := some ("Health check failures: " ++ m2) } }
        reg).1.apps =
      some (applyUpdate n2
        { status := some AppStatus.error,
          runtime_info := some { app.runtime_info with
            error_message := some ("Health check failures: " ++ m2) } } app) :=
    updateApp_lookup_self hApp
  have hc2 : (alookup app_id
      (aupsert app_id 2 (aupsert app_id 1 hm.failure_counts))).getD 0 = 2 := by
    rw [alookup_aupsert_self]
    rfl
  refine ⟨rfl, rfl, ⟨_, hlook2, rfl⟩, rfl, ?_, ?_⟩
  · unfold handleHealthCheckFailure
    rw [hc2]
    dsimp only
    rw [if_pos (by decide), hlook2]
    dsimp only
    rw [if_pos (by decide)]
    rfl
  · unfold handleHealthCheckFailure
    rw [hc2]
    dsimp only
    rw [if_pos (by decide), hlook2]
    dsimp only
    rw [if_pos (by decide)]
    exact alookup_aupsert_self _ _ _

/-- Installed running service entry of the C6 witness scenario. -/
def c6Entry : AppRegistryEntry :=
  { app_id := "svc", name := "svc", type := AppType.service, description := "d",
    version := "1.0.0", status := AppStatus.running, path := "svc",
    manifest := { name := "svc", type := AppType.service, description := "d",
                  version := "1.0.0", author := "A", main_file := "app.py",
                  config := { has_UI := true } } }

/-- Registry of the C6 witness scenario. -/
def c6Reg : RegState :=
  { apps := [("svc", c6Entry)], durable := [("svc", c6Entry)] }

/-- Witness for C6 at a concrete input: one running service app `svc` with a
zero failure counter, three failing checks, restart succeeding on the
third. -/
theorem C6_health_escalation_witness :
    (handleHealthCheckFailure {} 1 true RestartOutcome.failed "svc" "x" {} c6Reg).2 = c6Reg ∧
    (handleHealthCheckFailure {} 1 true RestartOutcome.failed "svc" "x" {} c6Reg).1.restartLog =
      HMState.restartLog {} ∧
    (∃ e, alookup "svc"
        (handleHealthCheckFailure {} 2 true RestartOutcome.failed "svc" "y"
          (handleHealthCheckFailure {} 1 true RestartOutcome.failed "svc" "x" {} c6Reg).1
          (handleHealthCheckFailure {} 1 true RestartOutcome.failed "svc" "x" {} c6Reg).2).2.apps
        = some e ∧ e.status = AppStatus.error) ∧
    (handleHealthCheckFailure {} 2 true RestartOutcome.failed "svc" "y"
      (handleHealthCheckFailure {} 1 true RestartOutcome.failed "svc" "x" {} c6Reg).1
      (handleHealthCheckFailure {} 1 true RestartOutcome.failed "svc" "x" {} c6Reg).2).1.restartLog =
      HMState.restartLog {} ∧
    (handleHealthCheckFailure {} 3 true RestartOutcome.ok "svc" "z"
      (handleHealthCheckFailure {} 2 true RestartOutcome.failed "svc" "y"
        (handleHealthCheckFailure {} 1 true RestartOutcome.failed "svc" "x" {} c6Reg).1
        (handleHealthCheckFailure {} 1 true RestartOutcome.failed "svc" "x" {} c6Reg).2).1
      (handleHealthCheckFailure {} 2 true RestartOutcome.failed "svc" "y"
        (handleHealthCheckFailure {} 1 true RestartOutcome.failed "svc" "x" {} c6Reg).1
        (handleHealthCheckFailure {} 1 true RestartOutcome.failed "svc" "x" {} c6Reg).2).2).1.restartLog =
      "svc" :: HMState.restartLog {} ∧
    alookup "svc"
      (handleHealthCheckFailure {} 3 true RestartOutcome.ok "svc" "z"
        (handleHealthCheckFailure {} 2 true RestartOutcome.failed "svc" "y"
          (handleHealthCheckFailure {} 1 true RestartOutcome.failed "svc" "x" {} c6Reg).1
          (handleHealthCheckFailure {} 1 true RestartOutcome.failed "svc" "x" {} c6Reg).2).1
        (handleHealthCheckFailure {} 2 true RestartOutcome.failed "svc" "y"
          (handleHealthCheckFailure {} 1 true RestartOutcome.failed "svc" "x" {} c6Reg).1
          (handleHealthCheckFailure {} 1 true RestartOutcome.failed "svc" "x" {} c6Reg).2).2).1.failure_counts
      = some 0 :=
  C6_health_escalation {} c6Reg "svc" c6Entry true true true
    RestartOutcome.failed RestartOutcome.failed 1 2 3 "x" "y" "z" rfl rfl rfl

/-! ## Background-process launcher (`process_manager_macos.py`)

State of `MacOSProcessManager`: the `processes` dict together with the shared
`AppRegistry` and `PortManager` instances it mutates.  OS interactions are
oracles: `pid_exists` (psutil.pid_exists), `avail` (the port manager's bind
probes during this call), `fileExists` (Path.exists), and `spawnResult`
(`some pid` when directory creation, log-file opening and `subprocess.Popen`
all succeed, `none` when any of lines 62-102 raises — the `except` on
line 117 then runs). -/

/-- Tracked process entry (`self.processes[app_id]`, lines 97-102).  The
bookkeeping `command` string of the source is omitted: nothing reads it. -/
structure ProcInfo : Type where
  pid : Nat
  port : Nat
  started_at : Nat
deriving DecidableEq, Repr

/-- Combined state the launcher operates on. -/
structure Sys : Type where
  reg : RegState
  pm : PMState
  procs : List (String × ProcInfo) := []
deriving DecidableEq, Repr

/-- Model of `MacOSProcessManager.start_app` (lines 28-122): missing app or
non-service type fail early; an already-tracked live pid is a no-op success;
then a port is allocated, the command built, the process spawned detached,
the tracking entry stored and the registry updated (`update_app` persists
*before* lines 110-112 mutate the entry's `runtime_info` in place, so the
port/pid land in the in-memory entry only).  On an exception the handler
(lines 117-122) drops any tracking entry and releases the port. -/
def startApp (pid_exists avail : Nat → Bool) (fileExists : String → Bool)
    (spawnResult : Option Nat) (now : Nat) (persistOk : Bool)
    (app_id : String) (s : Sys) : Sys × Bool :=
  match alookup app_id s.reg.apps with
  | none => (s, false)
  | some app =>
      if app.type ≠ AppType.service then (s, false)
      else
        let alreadyRunning :=
          match alookup app_id s.procs with
          | some pi => decide (pi.pid ≠ 0) && pid_exists pi.pid
          | none => false
        if alreadyRunning then (s, true)
        else
          let r := allocatePort avail now app_id app.type.str none s.pm
          match r.2 with
          | none => ({ s with pm := r.1 }, false)
          | some port =>
              if fileExists (app.path ++ "/" ++ app.manifest.main_file) = false then
                ({ s with pm := (releasePort app_id r.1).1 }, false)
              else
                match spawnResult with
                | none =>
                    ({ s with
                        pm := (releasePort app_id r.1).1,
                        procs := aerase app_id s.procs }, false)
                | some pid =>
                    let procs1 := aupsert app_id
                      { pid := pid, port := port, started_at := now } s.procs
                    let reg1 := (updateApp now persistOk app_id
                      { status := some AppStatus.running,
                        runtime_info := some app.runtime_info } s.reg).1
                    let rt := { app.runtime_info with
                        assigned_port := some port,
                        process_id := some (toString pid),
                        started_at := some now }
                    let reg2 := { reg1 with
                        apps := amodify app_id
                          (fun e => { e with runtime_info := rt }) reg1.apps }
                    ({ reg := reg2, pm := r.1, procs := procs1 }, true)

/-- Model of `MacOSProcessManager.get_app_status` (lines 168-184): untracked
apps report `stopped`; a tracked app with a live pid reports `running`; a
tracked app whose pid no longer exists is self-healed — the stale entry is
deleted, the port released — and `error` is reported.  The `if not pid`
check of line 174 is the `pid = 0` case. -/
def getAppStatus (pid_exists : Nat → Bool) (app_id : String) (s : Sys) :
    Sys × String :=
  match alookup app_id s.procs with
  | none => (s, "stopped")
  | some pi =>
      if pi.pid = 0 then (s, "stopped")
      else if pid_exists pi.pid then (s, "running")
      else
        ({ s with
            procs := aerase app_id s.procs,
            pm := (releasePort app_id s.pm).1 }, "error")

theorem releasePort_lookup_self (app_id : String) (s : PMState) :
    alookup app_id (releasePort app_id s).1.app_ports = none := by
  unfold releasePort
  cases hp : alookup app_id s.app_ports with
  | none => exact hp
  | some port => exact alookup_aerase_self _ _

theorem releasePort_range (app_id : String) (s : PMState) :
    (releasePort app_id s).1.rangePorts = s.rangePorts := by
  unfold releasePort
  cases hp : alookup app_id s.app_ports with
  | none => rfl
  | some port => rfl

/-- Port-manager state of the C7 counterexample: `x` still holds port
8100. -/
def c7Pm : PMState :=
  { port_start := 8100, port_end := 8105,
    allocations := [(8100,
      { port := 8100, app_id := "x", app_type := "service",
        allocated_at := 0, status := "allocated" })],
    app_ports := [("x", 8100)] }

/-- System state of the C7 counterexample: app `x` is tracked with a process
and holds a port, but is no longer in the registry.  Reachable by starting
`x` successfully and then unregistering it (`unregister_app` deletes the
registry entry without touching the launcher or the port manager). -/
def c7Sys : Sys :=
  { reg := { apps := [], durable := [] }, pm := c7Pm,
    procs := [("x", { pid := 7, port := 8100, started_at := 0 })] }

/-- C7 (counterexample): `start_app` can fail (here: app not found,
line 31-34) and return `false` while a process-tracking entry for the
application remains and its port allocation is still held — the early-return
failure paths do not clean up state left by earlier calls, only the
exception handler does. -/
theorem C7_start_not_atomic :
    ((startApp (fun _ => true) (fun _ => true) (fun _ => true) (some 9) 1 true
        "x" c7Sys).2 = false) ∧
    (alookup "x" (startApp (fun _ => true) (fun _ => true) (fun _ => true)
        (some 9) 1 true "x" c7Sys).1.procs =
      some { pid := 7, port := 8100, started_at := 0 }) ∧
    (alookup "x" (startApp (fun _ => true) (fun _ => true) (fun _ => true)
        (some 9) 1 true "x" c7Sys).1.pm.app_ports = some 8100) := by
  refine ⟨?_, ?_, ?_⟩ <;> rfl

/-- C7 (amended): the start attempt is atomic for applications that enter it
clean — if at call time the application has no tracking entry and holds no
port allocation, then whenever `start_app` returns `false`, the application
still has no tracking entry and holds no port allocation: every port taken
during the failed attempt has been released. -/
theorem C7_start_atomic_for_clean_app (pid_exists avail : Nat → Bool)
    (fileExists : String → Bool) (spawnResult : Option Nat) (now : Nat)
    (persistOk : Bool) (app_id : String) (s : Sys)
    (hproc : alookup app_id s.procs = none)
    (hport : alookup app_id s.pm.app_ports = none)
    (halloc : ∀ p al, (p, al) ∈ s.pm.allocations → al.app_id ≠ app_id)
    (hfail : (startApp pid_exists avail fileExists spawnResult now persistOk
        app_id s).2 = false) :
    alookup app_id (startApp pid_exists avail fileExists spawnResult now
        persistOk app_id s).1.procs = none ∧
    alookup app_id (startApp pid_exists avail fileExists spawnResult now
        persistOk app_id s).1.pm.app_ports = none ∧
    ∀ p al, (p, al) ∈ (startApp pid_exists avail fileExists spawnResult now
        persistOk app_id s).1.pm.allocations → al.app_id ≠ app_id := by
  unfold startApp at hfail ⊢
  cases hreg : alookup app_id s.reg.apps with
  | none => exact ⟨hproc, hport, halloc⟩
  | some app =>
    rw [hreg] at hfail
    dsimp only at hfail ⊢
    by_cases hty : app.type ≠ AppType.service
    · rw [if_pos hty] at hfail ⊢
      exact ⟨hproc, hport, halloc⟩
    · rw [if_neg hty] at hfail ⊢
      rw [hproc] at hfail ⊢
      dsimp only at hfail ⊢
      rw [if_neg (by decide : ¬ (false = true))] at hfail ⊢
      have hap : allocatePort avail now app_id app.type.str none s.pm =
          allocateScan avail now app_id app.type.str s.pm := by
        unfold allocatePort
        rw [hport]
        rfl
      rw [hap] at hfail ⊢
      unfold allocateScan at hfail ⊢
      cases hf : s.pm.rangePorts.find?
          (fun p => (alookup p s.pm.allocations).isNone && avail p) with
      | none =>
        rw [hf] at hfail
        dsimp only at hfail ⊢
        exact ⟨hproc, hport, halloc⟩
      | some port =>
        rw [hf] at hfail
        dsimp only at hfail ⊢
        have hpred := List.find?_some hf
        have hpfree : alookup port s.pm.allocations = none := by
          rcases Bool.and_eq_true_iff.mp hpred with ⟨hl, _⟩
          exact Option.isNone_iff_eq_none.mp hl
        have hportSelf : alookup app_id
            (allocateSpecificPort now app_id app.type.str port s.pm).1.app_ports =
            some port := allocateSpecificPort_lookup _ _ _ _ _
        have hrelPorts : alookup app_id
            (releasePort app_id
              (allocateSpecificPort now app_id app.type.str port s.pm).1).1.app_ports =
            none := releasePort_lookup_self _ _
        have hrelAllocs : ∀ p al,
            (p, al) ∈ (releasePort app_id
              (allocateSpecificPort now app_id app.type.str port s.pm).1).1.allocations →
            al.app_id ≠ app_id := by
          intro p al hmem
          unfold releasePort at hmem
          rw [hportSelf] at hmem
          dsimp only at hmem
          have h2 := mem_aerase.mp hmem
          unfold allocateSpecificPort at h2
          dsimp only at h2
          rcases mem_aupsert h2.1 with hnew | hold
          · obtain ⟨hp1, _⟩ := Prod.mk.injEq .. ▸ hnew
            exact absurd hp1 h2.2
          · exact halloc p al hold
        by_cases hfe : fileExists (app.path ++ "/" ++ app.manifest.main_file) = false
        · rw [if_pos hfe] at hfail ⊢
          exact ⟨hproc, hrelPorts, hrelAllocs⟩
        · rw [if_neg hfe] at hfail ⊢
          cases spawnResult with
          | none => exact ⟨alookup_aerase_self _ _, hrelPorts, hrelAllocs⟩
          | some pid =>
            dsimp only at hfail
            exact absurd hfail (by decide)

/-- Clean-state system of the C7 witness: `sample` is registered but holds
no port and has no tracking entry; its main file is missing, so the start
attempt fails after allocating a port. -/
def c7CleanSys : Sys :=
  { reg := { apps := [("sample", sampleEntry)], durable := [] },
    pm := pmInit 8100 8105, procs := [] }

/-- Witness for the amended C7 at a concrete input: starting `sample` with
its main file missing fails and leaves no tracking entry and no port
allocation. -/
theorem C7_start_atomic_for_clean_app_witness :
    alookup "sample" (startApp (fun _ => true) (fun _ => true) (fun _ => false)
        (some 9) 1 true "sample" c7CleanSys).1.procs = none ∧
    alookup "sample" (startApp (fun _ => true) (fun _ => true) (fun _ => false)
        (some 9) 1 true "sample" c7CleanSys).1.pm.app_ports = none ∧
    ∀ p al, (p, al) ∈ (startApp (fun _ => true) (fun _ => true) (fun _ => false)
        (some 9) 1 true "sample" c7CleanSys).1.pm.allocations →
      al.app_id ≠ "sample" :=
  C7_start_atomic_for_clean_app (fun _ => true) (fun _ => true) (fun _ => false)
    (some 9) 1 true "sample" c7CleanSys rfl rfl
    (fun p al h => absurd h (List.not_mem_nil _)) rfl

/-- C9: when the launcher tracks an application whose OS process no longer
exists, the next `get_app_status` call reports `error` (not `running`, not
`stopped`), removes the stale tracking entry and releases the port; a
subsequent `start_app` (main file present, spawn succeeding, a bindable port
available) succeeds and tracks a fresh process/port pair. -/
theorem C9_unexpected_death_selfheal (pid_exists pid_exists2 avail : Nat → Bool)
    (fileExists : String → Bool) (pid2 now2 : Nat) (persistOk : Bool)
    (app_id : String) (s : Sys) (pi : ProcInfo) (app : AppRegistryEntry)
    (hpi : alookup app_id s.procs = some pi)
    (hpid0 : pi.pid ≠ 0)
    (hdead : pid_exists pi.pid = false)
    (hcons : ∀ p, alookup app_id s.pm.app_ports = some p →
        (alookup p s.pm.allocations).isSome)
    (hreg : alookup app_id s.reg.apps = some app)
    (hty : app.type = AppType.service)
    (hfile : fileExists (app.path ++ "/" ++ app.manifest.main_file) = true)
    (hcand : ∃ q, q ∈ s.pm.rangePorts ∧
        alookup q (getAppStatus pid_exists app_id s).1.pm.allocations = none ∧
        avail q = true) :
    (getAppStatus pid_exists app_id s).2 = "error" ∧
    alookup app_id (getAppStatus pid_exists app_id s).1.procs = none ∧
    alookup app_id (getAppStatus pid_exists app_id s).1.pm.app_ports = none ∧
    (startApp pid_exists2 avail fileExists (some pid2) now2 persistOk app_id
        (getAppStatus pid_exists app_id s).1).2 = true ∧
    ∃ p2, alookup app_id (startApp pid_exists2 avail fileExists (some pid2)
          now2 persistOk app_id (getAppStatus pid_exists app_id s).1).1.procs =
        some { pid := pid2, port := p2, started_at := now2 } ∧
      alookup app_id (startApp pid_exists2 avail fileExists (some pid2) now2
          persistOk app_id (getAppStatus pid_exists app_id s).1).1.pm.app_ports =
        some p2 := by
  have e0 : getAppStatus pid_exists app_id s =
      Prod.mk
        { s with
            procs := aerase app_id s.procs,
            pm := (releasePort app_id s.pm).1 }
        "error" := by
    unfold getAppStatus
    rw [hpi]
    dsimp only
    rw [if_neg hpid0, hdead]
    rw [if_neg (by decide : ¬ (false = true))]
  rw [e0] at hcand ⊢
  dsimp only at hcand ⊢
  refine ⟨rfl, alookup_aerase_self _ _, releasePort_lookup_self _ _, ?_⟩
  unfold startApp
  rw [hreg]
  dsimp only
  rw [if_neg (not_not_intro hty)]
  rw [alookup_aerase_self]
  dsimp only
  rw [if_neg (by decide : ¬ (false = true))]
  have hap : allocatePort avail now2 app_id app.type.str none
      (releasePort app_id s.pm).1 =
      allocateScan avail now2 app_id app.type.str (releasePort app_id s.pm).1 := by
    unfold allocatePort
    rw [releasePort_lookup_self]
    rfl
  rw [hap]
  unfold allocateScan
  obtain ⟨q, hqmem, hqfree, hqavail⟩ := hcand
  have hsome : ((releasePort app_id s.pm).1.rangePorts.find?
      (fun p => (alookup p (releasePort app_id s.pm).1.allocations).isNone &&
        avail p)).isSome := by
    rw [List.find?_isSome]
    refine ⟨q, ?_, ?_⟩
    · rw [releasePort_range]
      exact hqmem
    · rw [hqfree]
      simp [hqavail]
  obtain ⟨p2, hp2⟩ := Option.isSome_iff_exists.mp hsome
  rw [hp2]
  dsimp only
  rw [if_neg (by simp [hfile])]
  dsimp only
  exact ⟨rfl, p2, alookup_aupsert_self _ _ _,
    allocateSpecificPort_lookup _ _ _ _ _⟩

/-- System of the C9 witness: `sample` is registered and tracked with pid 7,
which no longer exists; no port is currently held. -/
def c9Sys : Sys :=
  { reg := { apps := [("sample", sampleEntry)], durable := [] },
    pm := pmInit 8100 8105,
    procs := [("sample", { pid := 7, port := 8100, started_at := 0 })] }

/-- Witness for C9 at a concrete input: after the dead process of `sample`
is noticed, status is `error`, the tracker and port table are clean, and a
restart yields pid 9 on port 8100. -/
theorem C9_unexpected_death_selfheal_witness :
    (getAppStatus (fun _ => false) "sample" c9Sys).2 = "error" ∧
    alookup "sample" (getAppStatus (fun _ => false) "sample" c9Sys).1.procs = none ∧
    alookup "sample" (getAppStatus (fun _ => false) "sample" c9Sys).1.pm.app_ports = none ∧
    (startApp (fun _ => false) (fun _ => true) (fun _ => true) (some 9) 2 true
        "sample" (getAppStatus (fun _ => false) "sample" c9Sys).1).2 = true ∧
    ∃ p2, alookup "sample" (startApp (fun _ => false) (fun _ => true)
          (fun _ => true) (some 9) 2 true "sample"
          (getAppStatus (fun _ => false) "sample" c9Sys).1).1.procs =
        some { pid := 9, port := p2, started_at := 2 } ∧
      alookup "sample" (startApp (fun _ => false) (fun _ => true)
          (fun _ => true) (some 9) 2 true "sample"
          (getAppStatus (fun _ => false) "sample" c9Sys).1).1.pm.app_ports =
        some p2 :=
  C9_unexpected_death_selfheal (fun _ => false) (fun _ => false) (fun _ => true)
    (fun _ => true) 9 2 true "sample" c9Sys
    { pid := 7, port := 8100, started_at := 0 } sampleEntry rfl (by decide) rfl
    (fun p hp => by simp [c9Sys, pmInit, alookup] at hp) rfl rfl rfl
    ⟨8100, by decide, rfl, rfl⟩

/-! ## Preparation (`app_manager.py` lines 394-544, claim C4) -/

/-- Outcome of a Python call that may let an exception escape to its
caller. -/
inductive PyResult (α : Type) : Type
  | ok (a : α)
  | exc (msg : String)
deriving DecidableEq, Repr

/-- Model of `AppManager.install_app_dependencies` (lines 394-459).  For an
unknown app it returns `False` (lines 404-407).  For any found app, line 409
evaluates `app.manifest.requirements` — but the validated `AppManifest`
schema (lines 57-69) defines no `requirements` field, so the attribute access
raises `AttributeError`; the access sits before the `try` of line 418, so
nothing catches it and the exception escapes to the caller.  Every later
line of the function (requirements-file check, pip subprocess, status
updates) is unreachable. -/
def installAppDependencies (reg : RegState) (app_id : String) :
    PyResult (RegState × Bool) :=
  match alookup app_id reg.apps with
  | none => PyResult.ok (reg, false)
  | some _ =>
      PyResult.exc "AttributeError: AppManifest object has no attribute requirements"

/-- Model of `AppManager.run_setup_commands` (lines 461-503): trivially
`True` without setup commands; otherwise each command runs in order (the
oracle `cmdOk i` is `returncode == 0` of the i-th command) and the first
failing command records an error message on the entry in place (line 492,
without a registry persist) and returns `False`.  Its `try` spans the whole
body, so it never raises. -/
def runSetupCommands (cmdOk : Nat → Bool) (reg : RegState) (app_id : String) :
    RegState × Bool :=
  match alookup app_id reg.apps with
  | none => (reg, true)
  | some app =>
      match app.manifest.install.setup_commands with
      | none => (reg, true)
      | some cmds =>
          match (List.range cmds.length).find? (fun i => !(cmdOk i)) with
          | none => (reg, true)
          | some i =>
              ({ reg with
                  apps := amodify app_id
                    (fun e => { e with runtime_info := { e.runtime_info with
                      error_message := some ("Setup command failed: " ++
                        (cmds.getD i "")) } }) reg.apps },
               false)

/-- Model of `AppManager.prepare_app` (lines 505-544): unknown app fails,
`ready` app is a no-op success; otherwise dependencies are installed, setup
commands run, a port is allocated for `service` apps, and the status becomes
`ready`.  The steps after the install call are written out faithfully but
are unreachable: `install_app_dependencies` raises for every found app, and
`prepare_app` does not catch, so the `AttributeError` propagates to
`prepare_app`'s caller. -/
def prepareApp (cmdOk : Nat → Bool) (avail : Nat → Bool) (now : Nat)
    (persistOk : Bool) (app_id : String) (s : Sys) : PyResult (Sys × Bool) :=
  match alookup app_id s.reg.apps with
  | none => PyResult.ok (s, false)
  | some app =>
      if app.status = AppStatus.ready then PyResult.ok (s, true)
      else
        match installAppDependencies s.reg app_id with
        | PyResult.exc m => PyResult.exc m
        | PyResult.ok (reg1, ok1) =>
            if ok1 = false then PyResult.ok ({ s with reg := reg1 }, false)
            else
              let r2 := runSetupCommands cmdOk reg1 app_id
              if r2.2 = false then
                PyResult.ok
                  ({ s with reg := (updateApp now persistOk app_id
                      { status := some AppStatus.error } r2.1).1 }, false)
              else if app.type = AppType.service then
                let r3 := allocatePort avail now app_id app.type.str none s.pm
                match r3.2 with
                | some port =>
                    let rt := { app.runtime_info with assigned_port := some port }
                    let regA := (updateApp now persistOk app_id
                      { runtime_info := some rt } r2.1).1
                    let regB := (updateApp now persistOk app_id
                      { status := some AppStatus.ready } regA).1
                    PyResult.ok ({ reg := regB, pm := r3.1, procs := s.procs }, true)
                | none =>
                    let rt := { app.runtime_info with
                        error_message := some "Failed to allocate port" }
                    let regA := (updateApp now persistOk app_id
                      { status := some AppStatus.error, runtime_info := some rt }
                      r2.1).1
                    PyResult.ok ({ s with reg := regA, pm := r3.1 }, false)
              else
                PyResult.ok
                  ({ s with reg := (updateApp now persistOk app_id
                      { status := some AppStatus.ready } r2.1).1 }, true)

/-- C4 (divergence): for a registered application that is not `ready`, the
prepare operation does not return a boolean — it raises.  Evaluated at the
freshly discovered app `sample`: both `install_app_dependencies` and
`prepare_app` (which calls it without catching) let the `AttributeError`
from the nonexistent `AppManifest.requirements` field escape, contradicting
the claim that they terminate normally with a success flag. -/
theorem C4_prepare_raises :
    prepareApp (fun _ => true) (fun _ => true) 1 true "sample"
        { reg := { apps := [("sample", sampleEntry)], durable := [] },
          pm := pmInit 8100 8105, procs := [] } =
      PyResult.exc "AttributeError: AppManifest object has no attribute requirements" ∧
    installAppDependencies { apps := [("sample", sampleEntry)], durable := [] }
        "sample" =
      PyResult.exc "AttributeError: AppManifest object has no attribute requirements" :=
  ⟨rfl, rfl⟩

/-! ## TTL manager for ephemeral apps (`streamlit_manager.py`, claim C10) -/

/-- Tracked Streamlit process entry (`self.processes[app_id]`,
lines 120-126).  The bookkeeping `command` string is omitted: nothing reads
it. -/
structure StProcInfo : Type where
  pid : Nat
  port : Nat
  started_at : Nat
  last_accessed : Nat
deriving DecidableEq, Repr

/-- Combined state the Streamlit manager operates on. -/
structure StSys : Type where
  reg : RegState
  pm : PMState
  procs : List (String × StProcInfo) := []
deriving DecidableEq, Repr

/-- Model of `StreamlitManager._cleanup_app` (lines 168-210): terminate the
process, release the port, set the registry entry (when present) to status
`discovered` with `process_id` and `assigned_port` cleared, and drop the
tracking entry.  An untracked id raises `KeyError` on line 171, which the
`except` on lines 208-210 turns into `False` with no state change. -/
def cleanupApp (now : Nat) (persistOk : Bool) (app_id : String) (s : StSys) :
    StSys × Bool :=
  match alookup app_id s.procs with
  | none => (s, false)
  | some _ =>
      let pm1 := (releasePort app_id s.pm).1
      let reg1 :=
        match alookup app_id s.reg.apps with
        | none => s.reg
        | some app =>
            (updateApp now persistOk app_id
              { status := some AppStatus.discovered,
                runtime_info := some { app.runtime_info with
                  process_id := none, assigned_port := none } } s.reg).1
      ({ reg := reg1, pm := pm1, procs := aerase app_id s.procs }, true)

/-- Model of `StreamlitManager.stop_streamlit_app` (lines 159-166): `False`
for an untracked app, otherwise `_cleanup_app`. -/
def stopStreamlitApp (now : Nat) (persistOk : Bool) (app_id : String)
    (s : StSys) : StSys × Bool :=
  if (alookup app_id s.procs).isSome then cleanupApp now persistOk app_id s
  else (s, false)

/-- Model of one pass of the `_cleanup_loop` body (lines 225-239): collect
the tracked apps idle beyond the TTL window, then clean each up.  `ttl` is
`self.default_ttl` (300 seconds). -/
def cleanupSweep (now : Nat) (persistOk : Bool) (ttl : Nat) (s : StSys) : StSys :=
  let stale := (s.procs.filter
    (fun e => decide (now - e.2.last_accessed > ttl))).map Prod.fst
  stale.foldl (fun st a => (cleanupApp now persistOk a st).1) s

/-- Shape of a registry entry after the TTL manager cleaned its app up: the
claim's postcondition. -/
def CleanedUp (app_id : String) (s : StSys) : Prop :=
  (∃ e, alookup app_id s.reg.apps = some e ∧
    e.status = AppStatus.discovered ∧
    e.runtime_info.assigned_port = none ∧
    e.runtime_info.process_id = none) ∧
  alookup app_id s.procs = none

theorem cleanupApp_establishes {now : Nat} {persistOk : Bool} {app_id : String}
    {s : StSys} {pi : StProcInfo} {app : AppRegistryEntry}
    (hpi : alookup app_id s.procs = some pi)
    (hreg : alookup app_id s.reg.apps = some app) :
    CleanedUp app_id (cleanupApp now persistOk app_id s).1 := by
  unfold cleanupApp
  rw [hpi]
  dsimp only
  rw [hreg]
  dsimp only
  constructor
  · exact ⟨_, updateApp_lookup_self hreg, rfl, rfl, rfl⟩
  · exact alookup_aerase_self _ _

theorem cleanupApp_preserves {now : Nat} {persistOk : Bool} {app_id a : String}
    {s : StSys} (h : CleanedUp app_id s) :
    CleanedUp app_id (cleanupApp now persistOk a s).1 := by
  obtain ⟨⟨e, he, hst, hport, hpid⟩, hpr⟩ := h
  by_cases ha : a = app_id
  · subst ha
    unfold cleanupApp
    rw [hpr]
    exact ⟨⟨e, he, hst, hport, hpid⟩, hpr⟩
  · unfold cleanupApp
    cases hpa : alookup a s.procs with
    | none => exact ⟨⟨e, he, hst, hport, hpid⟩, hpr⟩
    | some pia =>
      dsimp only
      cases hra : alookup a s.reg.apps with
      | none =>
        refine ⟨⟨e, he, hst, hport, hpid⟩, ?_⟩
        exact (alookup_aerase_ne _ ha).trans hpr
      | some appa =>
        dsimp only
        refine ⟨⟨e, ?_, hst, hport, hpid⟩, ?_⟩
        · exact (updateApp_lookup_ne ha).trans he
        · exact (alookup_aerase_ne _ ha).trans hpr

/-- Tracking and registration of the app both survive the cleanup of a
different app id. -/
theorem cleanupApp_keeps {now : Nat} {persistOk : Bool} {app_id a : String}
    {s : StSys} {pi : StProcInfo} {app : AppRegistryEntry} (ha : a ≠ app_id)
    (hpi : alookup app_id s.procs = some pi)
    (hreg : alookup app_id s.reg.apps = some app) :
    alookup app_id (cleanupApp now persistOk a s).1.procs = some pi ∧
    alookup app_id (cleanupApp now persistOk a s).1.reg.apps = some app := by
  unfold cleanupApp
  cases hpa : alookup a s.procs with
  | none => exact ⟨hpi, hreg⟩
  | some pia =>
    dsimp only
    cases hra : alookup a s.reg.apps with
    | none =>
      exact ⟨(alookup_aerase_ne _ ha).trans hpi, hreg⟩
    | some appa =>
      dsimp only
      refine ⟨(alookup_aerase_ne _ ha).trans hpi, ?_⟩
      exact (updateApp_lookup_ne ha).trans hreg

theorem exists_first_split {α : Type} [DecidableEq α] {a : α} {l : List α}
    (h : a ∈ l) : ∃ l1 l2, l = l1 ++ a :: l2 ∧ a ∉ l1 := by
  induction l with
  | nil => simp at h
  | cons x t ih =>
    by_cases hx : x = a
    · exact ⟨[], t, by rw [hx]; rfl, by simp⟩
    · have h' : a ∈ t := by
        rcases List.mem_cons.mp h with h | h
        · exact absurd h.symm hx
        · exact h
      obtain ⟨l1, l2, he, hn⟩ := ih h'
      refine ⟨x :: l1, l2, by rw [he]; rfl, ?_⟩
      intro hmem
      rcases List.mem_cons.mp hmem with hmem | hmem
      · exact hx hmem.symm
      · exact hn hmem

theorem cleanup_fold_keeps {now : Nat} {persistOk : Bool} {app_id : String}
    (l : List String) (hl : ∀ x ∈ l, x ≠ app_id) :
    ∀ (s : StSys) (pi : StProcInfo) (app : AppRegistryEntry),
      alookup app_id s.procs = some pi →
      alookup app_id s.reg.apps = some app →
      alookup app_id
          (l.foldl (fun st a => (cleanupApp now persistOk a st).1) s).procs =
        some pi ∧
      alookup app_id
          (l.foldl (fun st a => (cleanupApp now persistOk a st).1) s).reg.apps =
        some app := by
  induction l with
  | nil => intro s pi app h1 h2; exact ⟨h1, h2⟩
  | cons x t ih =>
    intro s pi app h1 h2
    have hx : x ≠ app_id := hl x (List.mem_cons_self x t)
    obtain ⟨k1, k2⟩ := cleanupApp_keeps hx h1 h2
    exact ih (fun y hy => hl y (List.mem_cons_of_mem x hy)) _ pi app k1 k2

theorem cleanup_fold_preserves {now : Nat} {persistOk : Bool} {app_id : String}
    (l : List String) :
    ∀ (s : StSys), CleanedUp app_id s →
      CleanedUp app_id
        (l.foldl (fun st a => (cleanupApp now persistOk a st).1) s) := by
  induction l with
  | nil => intro s h; exact h
  | cons x t ih =>
    intro s h
    exact ih _ (cleanupApp_preserves h)

/-- C10: stopping an ephemeral app through the TTL manager — by an explicit
`stop_streamlit_app` call or by the inactivity sweep — leaves that app's
registry entry in status `discovered` (not `stopped`), with `assigned_port`
and `process_id` cleared from its `RuntimeInfo`, and drops the tracking
entry. -/
theorem C10_ttl_stop_resets_to_discovered (now : Nat) (persistOk : Bool)
    (ttl : Nat) (app_id : String) (s : StSys) (pi : StProcInfo)
    (app : AppRegistryEntry)
    (hpi : alookup app_id s.procs = some pi)
    (hreg : alookup app_id s.reg.apps = some app)
    (hidle : now - pi.last_accessed > ttl) :
    (stopStreamlitApp now persistOk app_id s).2 = true ∧
    CleanedUp app_id (stopStreamlitApp now persistOk app_id s).1 ∧
    CleanedUp app_id (cleanupSweep now persistOk ttl s) := by
  refine ⟨?_, ?_, ?_⟩
  · unfold stopStreamlitApp
    rw [hpi]
    rw [Option.isSome_some, if_pos rfl]
    unfold cleanupApp
    rw [hpi]
  · unfold stopStreamlitApp
    rw [hpi]
    rw [Option.isSome_some, if_pos rfl]
    exact cleanupApp_establishes hpi hreg
  · unfold cleanupSweep
    have hmem : app_id ∈ (s.procs.filter
        (fun e => decide (now - e.2.last_accessed > ttl))).map Prod.fst := by
      refine List.mem_map.mpr ⟨(app_id, pi), ?_, rfl⟩
      refine List.mem_filter.mpr ⟨alookup_mem hpi, by simpa using hidle⟩
    obtain ⟨l1, l2, hsplit, hnot⟩ := exists_first_split hmem
    rw [hsplit, List.foldl_append]
    obtain ⟨k1, k2⟩ := cleanup_fold_keeps l1
      (fun x hx => by intro he; exact hnot (he ▸ hx)) s pi app hpi hreg
    dsimp only [List.foldl]
    exact cleanup_fold_preserves l2 _
      (cleanupApp_establishes k1 k2)

/-- Streamlit entry of the C10 witness. -/
def c10Entry : AppRegistryEntry :=
  { app_id := "ui", name := "ui", type := AppType.streamlit, description := "d",
    version := "1.0.0", status := AppStatus.running, path := "ui",
    manifest := { name := "ui", type := AppType.streamlit, description := "d",
                  version := "1.0.0", author := "A", main_file := "app.py" } }

/-- System of the C10 witness: `ui` is tracked, registered as `running`, and
idle for 400 seconds against a 300-second TTL. -/
def c10Sys : StSys :=
  { reg := { apps := [("ui", c10Entry)], durable := [("ui", c10Entry)] },
    pm := { port_start := 8100, port_end := 8105,
            allocations := [(8100,
              { port := 8100, app_id := "ui", app_type := "streamlit",
                allocated_at := 0, status := "allocated" })],
            app_ports := [("ui", 8100)] },
    procs := [("ui", { pid := 7, port := 8100, started_at := 0,
                       last_accessed := 0 })] }

/-- Witness for C10 at a concrete input. -/
theorem C10_ttl_stop_resets_to_discovered_witness :
    (stopStreamlitApp 400 true "ui" c10Sys).2 = true ∧
    CleanedUp "ui" (stopStreamlitApp 400 true "ui" c10Sys).1 ∧
    CleanedUp "ui" (cleanupSweep 400 true 300 c10Sys) :=
  C10_ttl_stop_resets_to_discovered 400 true 300 "ui" c10Sys
    { pid := 7, port := 8100, started_at := 0, last_accessed := 0 }
    c10Entry rfl rfl (by decide)

end HomeHelper

